import Mathlib

/-!
Shallow embedding of `mahjongscore.py` (a Hong-Kong-rules Mahjong scorer):
the line classifier, the declaration/validation state machine, the score
engine and the aggregator, together with proofs about them.

Strings are modelled as `List Char`; a whole input text is a list of lines
(the result of `splitlines`).  Machine integers are `Nat`; Python numbers
that can be fractional (base stake, scores) are modelled as `ℚ`.  A base
stake parsed by `float(...)` is the correctly-rounded binary64 value of
the decimal literal, modelled exactly by the rounding function `fl`
below; the score engine is embedded twice, once in exact rational
arithmetic (`compute_net_scores`) and once under the program's binary64
arithmetic for a float base (`compute_net_scores_fl`), because exactness
properties can differ between the two.  Fallible Python code (raised
exceptions) is modelled with `Except` / `Option`.
-/

deriving instance DecidableEq for Except

namespace MahjongScore

abbrev Str := List Char

/-- ASCII whitespace, the `[\s]` character class of the source's regexes
(restricted to the ASCII range, which is all the claims exercise). -/
def isSpace (c : Char) : Bool :=
  c = ' ' || c = '\t' || c = '\n' || c = '\r' || c = '\x0b' || c = '\x0c'

/-- The `[0-9]` character class. -/
def isDigit (c : Char) : Bool :=
  '0' ≤ c && c ≤ '9'

/-- Everything of a line strictly before its first `#`.  Each of the
source's line regexes has the shape `^\s* BODY \s*(?:[#].*)?$` with a body
that cannot contain `#`, so a full match of the regex is equivalent to a
match of `\s*BODY\s*` against the text before the first `#`. -/
def stripComment : Str → Str
  | [] => []
  | c :: cs => if c = '#' then [] else c :: stripComment cs

/-- Split a line into pieces at each whitespace character, keeping empty
pieces (helper for `tokenize`). -/
def splitPieces : Str → List Str
  | [] => [[]]
  | c :: cs =>
    let r := splitPieces cs
    if isSpace c then [] :: r
    else
      match r with
      | [] => [[c]]
      | t :: ts => (c :: t) :: ts

/-- The maximal whitespace-free runs of a string, in order.  The bodies of
the source's regexes are sequences of whitespace-free tokens separated by
`[\s]+` with optional leading/trailing `[\s]*`, so a body match is
equivalent to a condition on this token list. -/
def tokenize (l : Str) : List Str :=
  (splitPieces l).filter (fun t => !t.isEmpty)

/-- Token list of a physical line: comment stripped, then tokenized. -/
def lineTokens (l : Str) : List Str :=
  tokenize (stripComment l)

/-- Lexicographic comparison of strings by code point, the semantics of
Python's `<` on `str` values (used for dates). -/
def strLt : Str → Str → Bool
  | _, [] => false
  | [], _ :: _ => true
  | a :: as', b :: bs => a < b || (a = b && strLt as' bs)

/-- Value of a digit string, the semantics of Python `int` on a `[0-9]+`
match. -/
def digitsToNat (t : Str) : ℕ :=
  t.foldl (fun a c => 10 * a + (c.toNat - '0'.toNat)) 0

/-- The token of a date line: `[0-9]{4}-[0-9]{2}-[0-9]{2}`. -/
def dateTok (t : Str) : Bool :=
  t.length = 10 &&
  isDigit (t.getD 0 ' ') && isDigit (t.getD 1 ' ') &&
  isDigit (t.getD 2 ' ') && isDigit (t.getD 3 ' ') &&
  t.getD 4 ' ' = '-' &&
  isDigit (t.getD 5 ' ') && isDigit (t.getD 6 ' ') &&
  t.getD 7 ' ' = '-' &&
  isDigit (t.getD 8 ' ') && isDigit (t.getD 9 ' ')

/-- The token of a base declaration, `B=(?P<base>[.0-9]+)`; returns the
captured `base` group. -/
def baseTok : Str → Option Str
  | 'B' :: '=' :: r =>
    if !r.isEmpty && r.all (fun c => isDigit c || c = '.') then some r else none
  | _ => none

/-- The token of a maximum-faan declaration, `M=(?P<maximum_faan>[0-9]+)`;
returns the captured group. -/
def maximumTok : Str → Option Str
  | 'M' :: '=' :: r =>
    if !r.isEmpty && r.all isDigit then some r else none
  | _ => none

/-- The token of a responsibility declaration,
`R=(?P<responsibility>half|full)`; returns the captured group. -/
def responsibilityTok (t : Str) : Option Str :=
  if t = "R=half".toList then some "half".toList
  else if t = "R=full".toList then some "full".toList
  else none

/-- The token of a spiciness declaration, `S=(?P<spiciness>half|spicy)`;
returns the captured group. -/
def spicinessTok (t : Str) : Option Str :=
  if t = "S=half".toList then some "half".toList
  else if t = "S=spicy".toList then some "spicy".toList
  else none

/-- First character of a player name: `[^\s#*0-9-]`. -/
def isNameStart (c : Char) : Bool :=
  !isSpace c && c ≠ '#' && c ≠ '*' && !isDigit c && c ≠ '-'

/-- Later character of a player name: `[^\s#*]`. -/
def isNameCont (c : Char) : Bool :=
  !isSpace c && c ≠ '#' && c ≠ '*'

/-- A player-name token, the regex `[^\s#*0-9-][^\s#*]*`. -/
def nameTok : Str → Bool
  | [] => false
  | c :: cs => isNameStart c && cs.all isNameCont

/-- One seat entry of a matched game line: either the `faan` group (a
`[0-9]+` match, already converted by `int`) or the `blame` group (a
`[-dDSf]` match). -/
inductive SeatToken where
  | faan : ℕ → SeatToken
  | blame : Char → SeatToken
deriving DecidableEq

/-- Classification of one game-line token by the alternation
`(?P<faan_i>[0-9]+) | (?P<blame_i>[-dDSf])`. -/
def readSeatToken (t : Str) : Option SeatToken :=
  if !t.isEmpty && t.all isDigit then some (.faan (digitsToNat t))
  else
    match t with
    | [c] =>
      if c = '-' || c = 'd' || c = 'D' || c = 'S' || c = 'f' then
        some (.blame c)
      else none
    | _ => none

/-- Homogeneous 4-tuple, indexing the four seats of a line. -/
structure Quad (α : Type) where
  q0 : α
  q1 : α
  q2 : α
  q3 : α
deriving DecidableEq

def Quad.get {α : Type} (q : Quad α) : Fin 4 → α
  | ⟨0, _⟩ => q.q0
  | ⟨1, _⟩ => q.q1
  | ⟨2, _⟩ => q.q2
  | ⟨3, _⟩ => q.q3

def Quad.ofFn {α : Type} (f : Fin 4 → α) : Quad α :=
  ⟨f 0, f 1, f 2, f 3⟩

def Quad.toList {α : Type} (q : Quad α) : List α :=
  [q.q0, q.q1, q.q2, q.q3]

/-- Embedding of `ScoreMaster.match_date_line`: returns the `date` group. -/
def match_date_line (l : Str) : Option Str :=
  match lineTokens l with
  | [t] => if dateTok t then some t else none
  | _ => none

/-- Embedding of `ScoreMaster.match_base_line`: returns the `base` group. -/
def match_base_line (l : Str) : Option Str :=
  match lineTokens l with
  | [t] => baseTok t
  | _ => none

/-- Embedding of `ScoreMaster.match_maximum_line`: returns the
`maximum_faan` group. -/
def match_maximum_line (l : Str) : Option Str :=
  match lineTokens l with
  | [t] => maximumTok t
  | _ => none

/-- Embedding of `ScoreMaster.match_responsibility_line`: returns the
`responsibility` group. -/
def match_responsibility_line (l : Str) : Option Str :=
  match lineTokens l with
  | [t] => responsibilityTok t
  | _ => none

/-- Embedding of `ScoreMaster.match_spiciness_line`: returns the
`spiciness` group. -/
def match_spiciness_line (l : Str) : Option Str :=
  match lineTokens l with
  | [t] => spicinessTok t
  | _ => none

/-- Embedding of `ScoreMaster.match_players_line`: returns the four `name`
groups. -/
def match_players_line (l : Str) : Option (Quad Str) :=
  match lineTokens l with
  | [a, b, c, d] =>
    if nameTok a && nameTok b && nameTok c && nameTok d then
      some ⟨a, b, c, d⟩
    else none
  | _ => none

/-- Embedding of `ScoreMaster.match_game_line`: returns, for each seat,
which of the `faan_i` / `blame_i` groups matched and its value. -/
def match_game_line (l : Str) : Option (Quad SeatToken) :=
  match lineTokens l with
  | [a, b, c, d] =>
    match readSeatToken a, readSeatToken b, readSeatToken c, readSeatToken d with
    | some s0, some s1, some s2, some s3 => some ⟨s0, s1, s2, s3⟩
    | _, _, _, _ => none
  | _ => none

/-- Embedding of `ScoreMaster.match_comment_line`. -/
def match_comment_line (l : Str) : Bool :=
  lineTokens l = []

/-- Embedding of `ScoreMaster.normalise_faan` (on the encoded seat entry:
the `faan_i` group is present exactly on the `faan` alternative). -/
def normalise_faan : SeatToken → Option ℕ
  | .faan n => some n
  | .blame _ => none

/-- Embedding of `ScoreMaster.normalise_blame` (on the encoded seat entry:
the `blame_i` group is present exactly on the `blame` alternative, and `-`
is normalised to `None`). -/
def normalise_blame : SeatToken → Option Char
  | .faan _ => none
  | .blame c => if c = '-' then none else some c

/-- Embedding of `get_duplicates` (with the `seen_items` set as a list). -/
def get_duplicates_aux (seen : List Str) : List Str → List Str
  | [] => []
  | x :: xs =>
    if x ∈ seen then x :: get_duplicates_aux seen xs
    else get_duplicates_aux (x :: seen) xs

def get_duplicates (l : List Str) : List Str :=
  get_duplicates_aux [] l

/-- Embedding of `robust_divide`: `None` on division by zero. -/
def robust_divide (dividend divisor : ℚ) : Option ℚ :=
  if divisor = 0 then none else some (dividend / divisor)

/-- Embedding of the `ScoreMaster.BadLineException` hierarchy, plus
`runtimeError` for the `RuntimeError`s that Python would let escape
`parse` (the "implementation error" branches of the score engine). -/
inductive Err where
  | badChronology : ℕ → Err
  | badFloat : ℕ → Err
  | duplicatePlayerNames : ℕ → Err
  | noPlayers : ℕ → Err
  | invalidLine : ℕ → Err
  | multipleWinners : ℕ → Err
  | maximumFaanExceeded : ℕ → Err
  | multipleBlame : ℕ → Err
  | noWinYetNonFalseBlame : ℕ → Err
  | winYetFalseBlame : ℕ → Err
  | redundantDiscardGuarantee : ℕ → Err
  | runtimeError : Err
deriving DecidableEq

/-- Embedding of the `Player` record.  Python initialises the three
derived ratio fields to `0`; after `update_averages` they are
`None`-or-number, hence `Option ℚ` initialised to `some 0`. -/
structure Player where
  name : Str
  game_count : ℕ
  win_count : ℕ
  blame_count : ℕ
  net_score : ℚ
  win_fraction : Option ℚ
  blame_fraction : Option ℚ
  net_score_per_game : Option ℚ
deriving DecidableEq

/-- Embedding of `Player.__init__`. -/
def mkPlayer (n : Str) : Player :=
  ⟨n, 0, 0, 0, 0, some 0, some 0, some 0⟩

/-- Embedding of `Player.update_averages`. -/
def Player.update_averages (p : Player) : Player :=
  { p with
    win_fraction := robust_divide (p.win_count : ℚ) (p.game_count : ℚ)
    blame_fraction := robust_divide (p.blame_count : ℚ) (p.game_count : ℚ)
    net_score_per_game := robust_divide p.net_score (p.game_count : ℚ) }

/-- Embedding of the `Game` record. -/
structure Game where
  date : Option Str
  base : ℚ
  maximum_faan : ℕ
  responsibility : Str
  spiciness : Str
  names : Quad Str
  winner_index : Option (Fin 4)
  winner_faan : Option ℕ
  blame_index : Option (Fin 4)
  blame_type : Option Char
deriving DecidableEq

/-- Embedding of `Game.compute_score_portion`.  `none` models the
`RuntimeError` raised when `spiciness` is neither `half` nor `spicy`;
`2 ** index * 3 // 2` is Python floor division on non-negative integers,
i.e. `Nat` division. -/
def compute_score_portion (base : ℚ) (spiciness : Str) (faan : ℕ) : Option ℚ :=
  if spiciness = "half".toList then
    some (base * ((if faan ≤ 4 then
        2 ^ faan
      else
        let index := 4 + (faan - 4) / 2
        if faan % 2 = 0 then 2 ^ index else 2 ^ index * 3 / 2 : ℕ) : ℚ))
  else if spiciness = "spicy".toList then
    some (base * ((2 ^ faan : ℕ) : ℚ))
  else
    none

/-- Embedding of `Game.compute_net_scores`.  `none` models the
unreachable-by-validation `RuntimeError` branches (and, in the win branch,
the crash Python would suffer if `winner_faan` were `None`). -/
def compute_net_scores (base : ℚ) (maximum_faan : ℕ)
    (responsibility spiciness : Str)
    (winner_index : Option (Fin 4)) (winner_faan : Option ℕ)
    (blame_index : Option (Fin 4)) (blame_type : Option Char) :
    Option (Quad ℚ) :=
  match winner_index with
  | none =>  -- no win
    match blame_index with
    | none =>  -- draw
      some ⟨0, 0, 0, 0⟩
    | some bi =>
      if blame_type = some 'f' then  -- false-win
        (compute_score_portion base spiciness maximum_faan).map fun portion =>
          Quad.ofFn fun i => if i = bi then -9 * portion else 3 * portion
      else
        none  -- "NoWinYetNonFalseBlameException ought to have been raised"
  | some wi =>  -- win
    match winner_faan with
    | none => none
    | some wf =>
      (compute_score_portion base spiciness wf).bind fun portion =>
        match blame_index with
        | none =>  -- self-drawn win
          some (Quad.ofFn fun i => if i = wi then 3 * portion else -portion)
        | some bi =>
          if blame_type = some 'd' then  -- discarding
            if responsibility = "half".toList then
              some (Quad.ofFn fun i =>
                if i = wi then 2 * portion
                else if i = bi then -portion
                else -portion / 2)
            else if responsibility = "full".toList then
              some (Quad.ofFn fun i =>
                if i = wi then 2 * portion
                else if i = bi then -2 * portion
                else 0)
            else
              none  -- "responsibility is neither half nor full"
          else if blame_type = some 'D' then  -- discard-guaranteeing
            some (Quad.ofFn fun i =>
              if i = wi then 2 * portion
              else if i = bi then -2 * portion
              else 0)
          else if blame_type = some 'S' then  -- self-draw-guaranteeing
            some (Quad.ofFn fun i =>
              if i = wi then 3 * portion
              else if i = bi then -3 * portion
              else 0)
          else
            none  -- "WinYetFalseBlameException ought to have been raised"

/-- One iteration of the seat loop of `Game.update`: seat `i` holds the
player named `g.names.get i`, whose counters and net score are bumped. -/
def seatUpdate (g : Game) (ns : Quad ℚ) (i : Fin 4) (p : Player) : Player :=
  if p.name = g.names.get i then
    { p with
      game_count := p.game_count + 1
      win_count := p.win_count + (if g.winner_index = some i then 1 else 0)
      blame_count := p.blame_count + (if g.blame_index = some i then 1 else 0)
      net_score := p.net_score + ns.get i }
  else p

/-- Embedding of `Game.update`: fold this game's per-seat deltas into the
player list (Python mutates `player_from_name`; updating every list entry
whose name matches a seat is the same map update).  `none` models the
`RuntimeError` that `compute_net_scores` would raise. -/
def Game.update (g : Game) (pm : List Player) : Option (List Player) :=
  (compute_net_scores g.base g.maximum_faan g.responsibility g.spiciness
      g.winner_index g.winner_faan g.blame_index g.blame_type).map fun ns =>
    (List.finRange 4).foldl (fun pm i => pm.map (seatUpdate g ns i)) pm

/-- Greatest `k ≤ 2047` with `2 ^ k ≤ m` (0 for `m = 0`): floor of the
base-2 logarithm by an 11-step binary search over the exponent, carrying
the power alongside so no large exponentiation is ever formed.  The bound
2047 covers every magnitude a binary64 value can have, which is all `fl`
below ever needs. -/
def natLog2 (m : ℕ) : ℕ :=
  let p1 : ℕ := 2
  let p2 := p1 * p1
  let p4 := p2 * p2
  let p8 := p4 * p4
  let p16 := p8 * p8
  let p32 := p16 * p16
  let p64 := p32 * p32
  let p128 := p64 * p64
  let p256 := p128 * p128
  let p512 := p256 * p256
  let p1024 := p512 * p512
  let step := fun (st : ℕ × ℕ) (wp : ℕ × ℕ) =>
    if st.2 * wp.2 ≤ m then (st.1 + wp.1, st.2 * wp.2) else st
  ([(1024, p1024), (512, p512), (256, p256), (128, p128), (64, p64),
    (32, p32), (16, p16), (8, p8), (4, p4), (2, p2), (1, p1)].foldl step
    (0, 1)).1

/-- Floor of the base-2 logarithm of a positive rational `p / q`:
`⌊x · 2 ^ b⌋ = p · 2 ^ b / q ≥ 1` for `b = natLog2 q + 1`, and taking
`natLog2` of that floor and shifting back by `b` gives the answer. -/
def floorLog2 (x : ℚ) : ℤ :=
  let p := x.num.toNat
  let q := x.den
  let b := natLog2 q + 1
  (natLog2 (p * 2 ^ b / q) : ℤ) - b

/-- Nearest integer to a rational, ties going to the even integer (the
IEEE-754 default rounding). -/
def roundHalfEven (y : ℚ) : ℤ :=
  let n := ⌊y⌋
  let f := y - n
  if f < 1 / 2 then n
  else if 1 / 2 < f then n + 1
  else if n % 2 = 0 then n else n + 1

/-- The rational `2 ^ e` for an integer exponent, via natural-number
powers and one inversion. -/
def pow2 (e : ℤ) : ℚ :=
  if 0 ≤ e then ((2 ^ e.toNat : ℕ) : ℚ) else ((2 ^ (-e).toNat : ℕ) : ℚ)⁻¹

/-- Binary64 rounding of a positive rational: scale by a power of two so
the significand lies in `[2^52, 2^53)`, round it to nearest-even, and
scale back. -/
def flPos (x : ℚ) : ℚ :=
  let e : ℤ := floorLog2 x - 52
  (roundHalfEven (x * pow2 (-e)) : ℚ) * pow2 e

/-- Round-to-nearest, ties-to-even binary64 rounding (the semantics of
every Python float operation), modelled exactly as a map on rationals.
The model covers the normal range `2^-1022 ≤ |x| < 2^1024`, which every
value arising in this development lies in (no subnormal flushing or
overflow-to-infinity is modelled). -/
def fl (x : ℚ) : ℚ :=
  if x = 0 then 0
  else if x < 0 then -flPos (-x)
  else flPos x

/-- Embedding of `Game.compute_score_portion` under the program's
binary64 arithmetic, which applies whenever the base stake came from a
`B=` declaration (Python's `float`): the single product
`base * multiplier` rounds once.  (With the default integer base 1 the
source computes in exact integer arithmetic, covered by the exact
embedding `compute_score_portion`.) -/
def compute_score_portion_fl (base : ℚ) (spiciness : Str) (faan : ℕ) :
    Option ℚ :=
  if spiciness = "half".toList then
    some (fl (base * ((if faan ≤ 4 then
        2 ^ faan
      else
        let index := 4 + (faan - 4) / 2
        if faan % 2 = 0 then 2 ^ index else 2 ^ index * 3 / 2 : ℕ) : ℚ)))
  else if spiciness = "spicy".toList then
    some (fl (base * ((2 ^ faan : ℕ) : ℚ)))
  else
    none

/-- Embedding of `Game.compute_net_scores` under the program's binary64
arithmetic for a float base: every Python multiplication and division
rounds via `fl`; unary negation is exact in IEEE-754 and stays exact. -/
def compute_net_scores_fl (base : ℚ) (maximum_faan : ℕ)
    (responsibility spiciness : Str)
    (winner_index : Option (Fin 4)) (winner_faan : Option ℕ)
    (blame_index : Option (Fin 4)) (blame_type : Option Char) :
    Option (Quad ℚ) :=
  match winner_index with
  | none =>
    match blame_index with
    | none =>
      some ⟨0, 0, 0, 0⟩
    | some bi =>
      if blame_type = some 'f' then
        (compute_score_portion_fl base spiciness maximum_faan).map
          fun portion => Quad.ofFn fun i =>
            if i = bi then fl (-9 * portion) else fl (3 * portion)
      else
        none
  | some wi =>
    match winner_faan with
    | none => none
    | some wf =>
      (compute_score_portion_fl base spiciness wf).bind fun portion =>
        match blame_index with
        | none =>
          some (Quad.ofFn fun i =>
            if i = wi then fl (3 * portion) else -portion)
        | some bi =>
          if blame_type = some 'd' then
            if responsibility = "half".toList then
              some (Quad.ofFn fun i =>
                if i = wi then fl (2 * portion)
                else if i = bi then -portion
                else fl (-portion / 2))
            else if responsibility = "full".toList then
              some (Quad.ofFn fun i =>
                if i = wi then fl (2 * portion)
                else if i = bi then fl (-2 * portion)
                else 0)
            else
              none
          else if blame_type = some 'D' then
            some (Quad.ofFn fun i =>
              if i = wi then fl (2 * portion)
              else if i = bi then fl (-2 * portion)
              else 0)
          else if blame_type = some 'S' then
            some (Quad.ofFn fun i =>
              if i = wi then fl (3 * portion)
              else if i = bi then fl (-3 * portion)
              else 0)
          else
            none

/-- Embedding of Python `float` applied to a `[.0-9]+` match: it succeeds
exactly when the string has at most one `.` and at least one digit, and
its value is then the correctly-rounded binary64 value of the decimal
literal, i.e. `fl` of the exact decimal rational. -/
def parseFloat (t : Str) : Option ℚ :=
  if t.count '.' ≤ 1 && t.any isDigit then
    let intPart := t.takeWhile (fun c => c ≠ '.')
    let fracPart := (t.dropWhile (fun c => c ≠ '.')).drop 1
    some (fl ((digitsToNat intPart : ℚ) +
      (digitsToNat fracPart : ℚ) / (10 : ℚ) ^ fracPart.length))
  else
    none

/-- Embedding of `ScoreMaster.extract_faan`. -/
def extract_faan (faans : Quad (Option ℕ)) (maximum_faan : ℕ) (ln : ℕ) :
    Except Err (Option (Fin 4) × Option ℕ) :=
  let faan_indices := (List.finRange 4).filter fun i => (faans.get i).isSome
  if 1 < faan_indices.length then
    .error (.multipleWinners ln)
  else
    match faan_indices with
    | [] => .ok (none, none)
    | i :: _ =>
      match faans.get i with
      | some f =>
        if maximum_faan < f then .error (.maximumFaanExceeded ln)
        else .ok (some i, some f)
      | none => .ok (some i, none)  -- dead: the filter guarantees isSome

/-- Embedding of `ScoreMaster.extract_blame`. -/
def extract_blame (blames : Quad (Option Char)) (ln : ℕ) :
    Except Err (Option (Fin 4) × Option Char) :=
  let blame_indices := (List.finRange 4).filter fun i => (blames.get i).isSome
  if 1 < blame_indices.length then
    .error (.multipleBlame ln)
  else
    match blame_indices with
    | [] => .ok (none, none)
    | i :: _ => .ok (some i, blames.get i)

/-- The mutable local state of `ScoreMaster.parse`'s line loop
(`player_from_name` as an insertion-ordered list, like a Python dict). -/
structure ParseState where
  players : List Player
  games : List Game
  date : Option Str
  base : ℚ
  maximum_faan : ℕ
  responsibility : Str
  spiciness : Str
  names : Option (Quad Str)
deriving DecidableEq

/-- The state at the top of `ScoreMaster.parse` (the module-level
defaults: base 1, maximum faan 13, full responsibility, half spiciness). -/
def initState : ParseState :=
  ⟨[], [], none, 1, 13, "full".toList, "half".toList, none⟩

/-- Dict insertion `player_from_name[name] = Player(name)` guarded by
`if name not in player_from_name`. -/
def addPlayer (pm : List Player) (n : Str) : List Player :=
  if pm.any (fun p => p.name = n) then pm else pm ++ [mkPlayer n]

/-- The skip condition of the `start_date` filter:
`date is None or date < start_date` (when a start date was supplied). -/
def skipStart (start_date date : Option Str) : Bool :=
  match start_date with
  | none => false
  | some sd =>
    match date with
    | none => true
    | some d => strLt d sd

/-- The skip condition of the `end_date` filter:
`date is None or date >= end_date` (when an end date was supplied). -/
def skipEnd (end_date date : Option Str) : Bool :=
  match end_date with
  | none => false
  | some ed =>
    match date with
    | none => true
    | some d => !strLt d ed

/-- One iteration of the line loop of `ScoreMaster.parse`: the fixed
matcher cascade, with the date-window filter between the date matcher and
all the others, exactly as in the source. -/
def parseLine (start_date end_date : Option Str) (ln : ℕ)
    (st : ParseState) (line : Str) : Except Err ParseState :=
  match match_date_line line with
  | some new_date =>
    match st.date with
    | some d =>
      if strLt new_date d then .error (.badChronology ln)
      else .ok { st with date := some new_date }
    | none => .ok { st with date := some new_date }
  | none =>
  if skipStart start_date st.date then .ok st
  else if skipEnd end_date st.date then .ok st
  else
  match match_base_line line with
  | some base_str =>
    match parseFloat base_str with
    | some b => .ok { st with base := b }
    | none => .error (.badFloat ln)
  | none =>
  match match_maximum_line line with
  | some m_str => .ok { st with maximum_faan := digitsToNat m_str }
  | none =>
  match match_responsibility_line line with
  | some r => .ok { st with responsibility := r }
  | none =>
  match match_spiciness_line line with
  | some s => .ok { st with spiciness := s }
  | none =>
  match match_players_line line with
  | some ns =>
    if get_duplicates ns.toList ≠ [] then .error (.duplicatePlayerNames ln)
    else .ok { st with
      names := some ns
      players := ns.toList.foldl addPlayer st.players }
  | none =>
  match match_game_line line with
  | some toks =>
    match st.names with
    | none => .error (.noPlayers ln)
    | some ns =>
      let faans := Quad.ofFn fun i => normalise_faan (toks.get i)
      match extract_faan faans st.maximum_faan ln with
      | .error e => .error e
      | .ok (winner_index, winner_faan) =>
        let blames := Quad.ofFn fun i => normalise_blame (toks.get i)
        match extract_blame blames ln with
        | .error e => .error e
        | .ok (blame_index, blame_type) =>
          if winner_index = none ∧ blame_type ≠ none ∧ blame_type ≠ some 'f' then
            .error (.noWinYetNonFalseBlame ln)
          else if winner_index ≠ none ∧ blame_type = some 'f' then
            .error (.winYetFalseBlame ln)
          else if st.responsibility = "full".toList ∧ blame_type = some 'D' then
            .error (.redundantDiscardGuarantee ln)
          else
            .ok { st with games := st.games ++
              [⟨st.date, st.base, st.maximum_faan, st.responsibility,
                st.spiciness, ns, winner_index, winner_faan,
                blame_index, blame_type⟩] }
  | none =>
  if match_comment_line line then .ok st
  else .error (.invalidLine ln)

/-- The line loop of `ScoreMaster.parse`, with 1-based line numbers. -/
def parseLines (start_date end_date : Option Str) :
    ℕ → ParseState → List Str → Except Err ParseState
  | _, st, [] => .ok st
  | ln, st, l :: ls =>
    match parseLine start_date end_date ln st l with
    | .error e => .error e
    | .ok st' => parseLines start_date end_date (ln + 1) st' ls

/-- The `for game in games: game.update(player_from_name)` loop. -/
def applyGames (pm : List Player) : List Game → Option (List Player)
  | [] => some pm
  | g :: gs =>
    match g.update pm with
    | some pm' => applyGames pm' gs
    | none => none

/-- The synthetic `everyone` record `Player('*')` with the four summed
fields assigned. -/
def mkEveryone (pm : List Player) : Player :=
  ⟨"*".toList,
    (pm.map Player.game_count).sum,
    (pm.map Player.win_count).sum,
    (pm.map Player.blame_count).sum,
    (pm.map Player.net_score).sum,
    some 0, some 0, some 0⟩

/-- Embedding of `ScoreMaster.parse` on an already-split list of lines:
returns `players_including_everyone` and `games`. -/
def parse (lines : List Str) (start_date end_date : Option Str) :
    Except Err (List Player × List Game) :=
  match parseLines start_date end_date 1 initState lines with
  | .error e => .error e
  | .ok st =>
    match applyGames st.players st.games with
    | none => .error .runtimeError
    | some pm =>
      let players_including_everyone := pm ++ [mkEveryone pm]
      .ok (players_including_everyone.map Player.update_averages, st.games)

/-- Properties every `Game` appended by `parse` enjoys, established by the
regular grammar and the validation raises of the game-line branch. -/
def ValidGame (g : Game) : Prop :=
  (g.responsibility = "half".toList ∨ g.responsibility = "full".toList) ∧
  (g.spiciness = "half".toList ∨ g.spiciness = "spicy".toList) ∧
  (g.winner_index = none ↔ g.winner_faan = none) ∧
  (g.blame_index = none ↔ g.blame_type = none) ∧
  (∀ c, g.blame_type = some c → c = 'd' ∨ c = 'D' ∨ c = 'S' ∨ c = 'f') ∧
  (g.winner_index = none → g.blame_type = none ∨ g.blame_type = some 'f') ∧
  (g.winner_index ≠ none → g.blame_type ≠ some 'f') ∧
  (∀ i j, g.winner_index = some i → g.blame_index = some j → i ≠ j) ∧
  Function.Injective g.names.get

/-- Valid spiciness always yields a portion (the `RuntimeError` branch of
`compute_score_portion` is unreachable). -/
theorem portion_isSome (base : ℚ) (spiciness : Str) (faan : ℕ)
    (hs : spiciness = "half".toList ∨ spiciness = "spicy".toList) :
    ∃ p, compute_score_portion base spiciness faan = some p := by
  rcases hs with h | h <;> subst h <;> simp [compute_score_portion]

/-- Core engine lemma: on any game satisfying `ValidGame`,
`compute_net_scores` succeeds and its four components sum to zero. -/
theorem valid_game_net_scores (g : Game) (hg : ValidGame g) :
    ∃ v, compute_net_scores g.base g.maximum_faan g.responsibility
        g.spiciness g.winner_index g.winner_faan g.blame_index g.blame_type
        = some v ∧ v.q0 + v.q1 + v.q2 + v.q3 = 0 := by
  obtain ⟨hresp, hspic, hwf, hbt, hvocab, hnowin, hwin, hne, -⟩ := hg
  cases hwi : g.winner_index with
  | none =>
    cases hbi : g.blame_index with
    | none =>
      exact ⟨⟨0, 0, 0, 0⟩, by simp [compute_net_scores, hwi, hbi], by norm_num⟩
    | some bi =>
      have hbsome : g.blame_type ≠ none := by
        intro h; rw [hbt.mpr h] at hbi; exact Option.noConfusion hbi
      have hf : g.blame_type = some 'f' := by
        rcases hnowin hwi with h | h
        · exact absurd h hbsome
        · exact h
      obtain ⟨p, hp⟩ := portion_isSome g.base g.spiciness g.maximum_faan hspic
      refine ⟨Quad.ofFn fun i => if i = bi then -9 * p else 3 * p, ?_, ?_⟩
      · simp [compute_net_scores, hwi, hbi, hf, hp]
      · fin_cases bi <;> simp [Quad.ofFn] <;> ring
  | some wi =>
    have hwfs : ∃ wf, g.winner_faan = some wf := by
      cases h : g.winner_faan with
      | none => rw [hwf.mpr h] at hwi; exact Option.noConfusion hwi
      | some wf => exact ⟨wf, rfl⟩
    obtain ⟨wf, hwfs⟩ := hwfs
    obtain ⟨p, hp⟩ := portion_isSome g.base g.spiciness wf hspic
    cases hbi : g.blame_index with
    | none =>
      refine ⟨Quad.ofFn fun i => if i = wi then 3 * p else -p, ?_, ?_⟩
      · simp [compute_net_scores, hwi, hwfs, hbi, hp]
      · fin_cases wi <;> simp [Quad.ofFn] <;> ring
    | some bi =>
      have hwb : wi ≠ bi := hne wi bi hwi hbi
      have hbsome : ∃ c, g.blame_type = some c := by
        cases h : g.blame_type with
        | none => rw [hbt.mpr h] at hbi; exact Option.noConfusion hbi
        | some c => exact ⟨c, rfl⟩
      obtain ⟨c, hc⟩ := hbsome
      have hcf : c ≠ 'f' := by
        intro h; subst h
        exact hwin (by rw [hwi]; exact fun h => Option.noConfusion h) hc
      rcases hvocab c hc with h | h | h | h
      · subst h
        rcases hresp with hr | hr
        · refine ⟨Quad.ofFn fun i =>
            if i = wi then 2 * p else if i = bi then -p else -p / 2, ?_, ?_⟩
          · simp [compute_net_scores, hwi, hwfs, hbi, hc, hp, hr]
          · fin_cases wi <;> fin_cases bi <;>
              first
              | exact absurd rfl hwb
              | (simp [Quad.ofFn] <;> ring)
        · refine ⟨Quad.ofFn fun i =>
            if i = wi then 2 * p else if i = bi then -2 * p else 0, ?_, ?_⟩
          · have : g.responsibility ≠ "half".toList := by
              rw [hr]; intro h; exact absurd (List.cons.inj h).1 (by decide)
            simp [compute_net_scores, hwi, hwfs, hbi, hc, hp, hr, this]
          · fin_cases wi <;> fin_cases bi <;>
              first
              | exact absurd rfl hwb
              | (simp [Quad.ofFn] <;> ring)
      · subst h
        refine ⟨Quad.ofFn fun i =>
          if i = wi then 2 * p else if i = bi then -2 * p else 0, ?_, ?_⟩
        · simp [compute_net_scores, hwi, hwfs, hbi, hc, hp]
        · fin_cases wi <;> fin_cases bi <;>
            first
            | exact absurd rfl hwb
            | (simp [Quad.ofFn] <;> ring)
      · subst h
        refine ⟨Quad.ofFn fun i =>
          if i = wi then 3 * p else if i = bi then -3 * p else 0, ?_, ?_⟩
        · simp [compute_net_scores, hwi, hwfs, hbi, hc, hp]
        · fin_cases wi <;> fin_cases bi <;>
            first
            | exact absurd rfl hwb
            | (simp [Quad.ofFn] <;> ring)
      · exact absurd h hcf

/-- Reference definition, written from the spec's words: the half-spicy
multiplier curve (`2^faan` up to 4 faan, then the 4-6-8 style hybrid
rise). -/
def spec_half_multiplier (faan : ℕ) : ℕ :=
  if faan ≤ 4 then 2 ^ faan
  else
    let idx := 4 + (faan - 4) / 2
    if faan % 2 = 0 then 2 ^ idx else 2 ^ idx * 3 / 2

/-- Reference definition, written from the spec's words: the spicy-spicy
multiplier, `2^faan` unconditionally. -/
def spec_spicy_multiplier (faan : ℕ) : ℕ :=
  2 ^ faan

/-- C2: for every base and faan, `compute_score_portion` returns the base
times the spec's multiplier curve for the selected spiciness, and at base
1 the half-spicy curve gives the spec's sequence 1,2,4,...,384 for faan
0..13. -/
theorem compute_score_portion_matches_spec (base : ℚ) (faan : ℕ) :
    compute_score_portion base "half".toList faan
        = some (base * spec_half_multiplier faan) ∧
    compute_score_portion base "spicy".toList faan
        = some (base * spec_spicy_multiplier faan) ∧
    (List.range 14).map (fun f => compute_score_portion 1 "half".toList f)
      = ([1, 2, 4, 8, 16, 24, 32, 48, 64, 96, 128, 192, 256, 384] : List ℕ).map
          (fun m => some (m : ℚ)) := by
  refine ⟨?_, ?_, ?_⟩
  · simp [compute_score_portion, spec_half_multiplier]
  · simp [compute_score_portion, spec_spicy_multiplier]
  · with_unfolding_all decide

/-- C3: a false-win game (no winner, blame `f` at seat `bi`) pays the
blamed seat `-9·portion` and every other seat `+3·portion`, with the
portion computed at `faan = maximum_faan`; no faan from the line enters
(the winner faan slot of such a game is `none`). -/
theorem false_win_payout (base : ℚ) (maximum_faan : ℕ)
    (responsibility spiciness : Str) (bi : Fin 4)
    (hs : spiciness = "half".toList ∨ spiciness = "spicy".toList) :
    ∃ p, compute_score_portion base spiciness maximum_faan = some p ∧
      compute_net_scores base maximum_faan responsibility spiciness
          none none (some bi) (some 'f')
        = some (Quad.ofFn fun i => if i = bi then -9 * p else 3 * p) := by
  obtain ⟨p, hp⟩ := portion_isSome base spiciness maximum_faan hs
  exact ⟨p, hp, by simp [compute_net_scores, hp]⟩

/-- Witness for C3 at base 1, maximum faan 13, full responsibility, half
spiciness, blamed seat 0. -/
theorem false_win_payout_witness :
    ("half".toList = "half".toList ∨ "half".toList = "spicy".toList) ∧
    ∃ p, compute_score_portion 1 "half".toList 13 = some p ∧
      compute_net_scores 1 13 "full".toList "half".toList
          none none (some 0) (some 'f')
        = some (Quad.ofFn fun i => if i = 0 then -9 * p else 3 * p) :=
  ⟨Or.inl rfl,
    false_win_payout 1 13 "full".toList "half".toList 0 (Or.inl rfl)⟩

theorem get_duplicates_aux_ne_nil (x : Str) (l : List Str) (hx : x ∈ l) :
    ∀ seen, x ∈ seen → get_duplicates_aux seen l ≠ [] := by
  induction l with
  | nil => cases hx
  | cons y ys ih =>
    intro seen hseen
    unfold get_duplicates_aux
    rcases List.mem_cons.mp hx with rfl | hmem
    · rw [if_pos hseen]; simp
    · split
      · simp
      · exact ih hmem (y :: seen) (List.mem_cons_of_mem y hseen)

theorem get_duplicates_aux_nil (l : List Str) :
    ∀ seen, get_duplicates_aux seen l = [] → l.Nodup := by
  induction l with
  | nil => intro seen _; exact List.nodup_nil
  | cons x xs ih =>
    intro seen h
    unfold get_duplicates_aux at h
    split at h
    · exact absurd h (by simp)
    · refine List.nodup_cons.mpr ⟨?_, ih (x :: seen) h⟩
      intro hmem
      exact get_duplicates_aux_ne_nil x xs hmem (x :: seen)
        (List.mem_cons_self x seen) h

theorem get_duplicates_nil_nodup (l : List Str) (h : get_duplicates l = []) :
    l.Nodup :=
  get_duplicates_aux_nil l [] h

theorem quad_get_injective {α : Type} (q : Quad α) (h : q.toList.Nodup) :
    Function.Injective q.get := by
  simp only [Quad.toList, List.nodup_cons, List.mem_cons, List.mem_singleton,
    List.nodup_nil, List.not_mem_nil, or_false, and_true] at h
  intro i j hij
  fin_cases i <;> fin_cases j <;> simp_all [Quad.get]

theorem responsibility_vocab (l : Str) (r : Str)
    (h : match_responsibility_line l = some r) :
    r = "half".toList ∨ r = "full".toList := by
  unfold match_responsibility_line at h
  split at h
  · unfold responsibilityTok at h
    split at h
    · exact Or.inl (by injection h with h; exact h.symm)
    · split at h
      · exact Or.inr (by injection h with h; exact h.symm)
      · exact absurd h (by simp)
  · exact absurd h (by simp)

theorem spiciness_vocab (l : Str) (s : Str)
    (h : match_spiciness_line l = some s) :
    s = "half".toList ∨ s = "spicy".toList := by
  unfold match_spiciness_line at h
  split at h
  · unfold spicinessTok at h
    split at h
    · exact Or.inl (by injection h with h; exact h.symm)
    · split at h
      · exact Or.inr (by injection h with h; exact h.symm)
      · exact absurd h (by simp)
  · exact absurd h (by simp)

theorem readSeatToken_blame_vocab (t : Str) (c : Char)
    (h : readSeatToken t = some (.blame c)) :
    c = '-' ∨ c = 'd' ∨ c = 'D' ∨ c = 'S' ∨ c = 'f' := by
  unfold readSeatToken at h
  split at h
  · exact absurd h (by simp)
  · split at h
    · split at h
      · rename_i c' hc'
        injection h with h
        injection h with h
        subst h
        simp only [Bool.or_eq_true, decide_eq_true_eq] at hc'
        tauto
      · exact absurd h (by simp)
    · exact absurd h (by simp)

theorem match_game_line_spec (l : Str) (toks : Quad SeatToken)
    (h : match_game_line l = some toks) :
    ∃ a b c d, lineTokens l = [a, b, c, d] ∧
      readSeatToken a = some toks.q0 ∧ readSeatToken b = some toks.q1 ∧
      readSeatToken c = some toks.q2 ∧ readSeatToken d = some toks.q3 := by
  unfold match_game_line at h
  rcases htoks : lineTokens l with - | ⟨a, - | ⟨b, - | ⟨c, - | ⟨d, - | ⟨e, rest⟩⟩⟩⟩⟩ <;>
    rw [htoks] at h <;> dsimp only at h <;> try exact Option.noConfusion h
  refine ⟨a, b, c, d, rfl, ?_⟩
  cases ha : readSeatToken a <;> cases hb : readSeatToken b <;>
    cases hc : readSeatToken c <;> cases hd : readSeatToken d <;>
    rw [ha, hb, hc, hd] at h <;> dsimp only at h <;>
    try exact Option.noConfusion h
  injection h with h
  rw [← h]
  exact ⟨rfl, rfl, rfl, rfl⟩

theorem match_game_blame_vocab (l : Str) (toks : Quad SeatToken)
    (h : match_game_line l = some toks) (i : Fin 4) (c : Char)
    (hc : normalise_blame (toks.get i) = some c) :
    c = 'd' ∨ c = 'D' ∨ c = 'S' ∨ c = 'f' := by
  obtain ⟨a, b, c', d, -, ha, hb, hc', hd⟩ := match_game_line_spec l toks h
  have vocab : ∀ s : SeatToken, (toks.q0 = s ∨ toks.q1 = s ∨ toks.q2 = s ∨
      toks.q3 = s) → ∀ ch, s = .blame ch →
      ch = '-' ∨ ch = 'd' ∨ ch = 'D' ∨ ch = 'S' ∨ ch = 'f' := by
    rintro s (hs | hs | hs | hs) ch rfl
    · exact readSeatToken_blame_vocab a ch (hs ▸ ha)
    · exact readSeatToken_blame_vocab b ch (hs ▸ hb)
    · exact readSeatToken_blame_vocab c' ch (hs ▸ hc')
    · exact readSeatToken_blame_vocab d ch (hs ▸ hd)
  have hblame : ∃ ch, toks.get i = .blame ch ∧ ch ≠ '-' ∧ c = ch := by
    unfold normalise_blame at hc
    split at hc
    · exact absurd hc (by simp)
    · rename_i ch heq
      split at hc
      · exact absurd hc (by simp)
      · rename_i hne
        exact ⟨ch, heq, hne, by injection hc with hc; exact hc.symm⟩
  obtain ⟨ch, hget, hne, rfl⟩ := hblame
  have hq : toks.q0 = toks.get i ∨ toks.q1 = toks.get i ∨
      toks.q2 = toks.get i ∨ toks.q3 = toks.get i := by
    fin_cases i <;> simp [Quad.get]
  rcases vocab (toks.get i) hq c hget with h' | h'
  · exact absurd h' hne
  · exact h'

theorem normalise_faan_blame_excl (s : SeatToken) (n : ℕ)
    (h : normalise_faan s = some n) : normalise_blame s = none := by
  cases s with
  | faan _ => rfl
  | blame _ => exact absurd h (by simp [normalise_faan])

theorem extract_faan_spec (faans : Quad (Option ℕ)) (maxf ln : ℕ)
    (wi : Option (Fin 4)) (wf : Option ℕ)
    (h : extract_faan faans maxf ln = .ok (wi, wf)) :
    (wi = none ∧ wf = none) ∨
      ∃ i f, wi = some i ∧ wf = some f ∧ faans.get i = some f ∧ f ≤ maxf := by
  unfold extract_faan at h
  dsimp only at h
  split at h
  · exact absurd h (by simp)
  · rename_i hlen
    split at h
    · left
      injection h with h
      injection h with h1 h2
      exact ⟨h1.symm, h2.symm⟩
    · rename_i i rest hl
      have hmem : i ∈ (List.finRange 4).filter
          (fun i => (faans.get i).isSome) := by
        rw [hl]; exact List.mem_cons_self i rest
      have hsome : (faans.get i).isSome := by
        simpa using (List.mem_filter.mp hmem).2
      split at h
      · rename_i f hf
        split at h
        · exact absurd h (by simp)
        · rename_i hmax
          right
          injection h with h
          injection h with h1 h2
          exact ⟨i, f, h1.symm, h2.symm, hf, Nat.le_of_not_lt hmax⟩
      · rename_i hf
        rw [hf] at hsome
        exact absurd hsome (by simp)

theorem extract_blame_spec (blames : Quad (Option Char)) (ln : ℕ)
    (bi : Option (Fin 4)) (bt : Option Char)
    (h : extract_blame blames ln = .ok (bi, bt)) :
    (bi = none ∧ bt = none) ∨
      ∃ i, bi = some i ∧ bt = blames.get i ∧ (blames.get i).isSome := by
  unfold extract_blame at h
  dsimp only at h
  split at h
  · exact absurd h (by simp)
  · rename_i hlen
    split at h
    · left
      injection h with h
      injection h with h1 h2
      exact ⟨h1.symm, h2.symm⟩
    · rename_i i rest hl
      have hmem : i ∈ (List.finRange 4).filter
          (fun i => (blames.get i).isSome) := by
        rw [hl]; exact List.mem_cons_self i rest
      have hsome : (blames.get i).isSome := by
        simpa using (List.mem_filter.mp hmem).2
      right
      injection h with h
      injection h with h1 h2
      exact ⟨i, h1.symm, h2.symm, hsome⟩

theorem Quad.get_ofFn {α : Type} (f : Fin 4 → α) (i : Fin 4) :
    (Quad.ofFn f).get i = f i := by
  fin_cases i <;> rfl

/-- Invariant of the parse loop state: configuration vocabularies, roster
distinctness, validity of the accumulated games, and pristine counters on
the accumulated players (counts are only folded in after the loop). -/
def StInv (st : ParseState) : Prop :=
  (st.responsibility = "half".toList ∨ st.responsibility = "full".toList) ∧
  (st.spiciness = "half".toList ∨ st.spiciness = "spicy".toList) ∧
  (∀ ns, st.names = some ns → Function.Injective ns.get) ∧
  (∀ g ∈ st.games, ValidGame g) ∧
  (∀ p ∈ st.players, p.game_count = 0 ∧ p.win_count = 0 ∧
    p.blame_count = 0 ∧ p.net_score = 0)

theorem foldl_addPlayer_zero (ns : List Str) :
    ∀ pm : List Player,
    (∀ p ∈ pm, p.game_count = 0 ∧ p.win_count = 0 ∧
      p.blame_count = 0 ∧ p.net_score = 0) →
    ∀ p ∈ ns.foldl addPlayer pm, p.game_count = 0 ∧ p.win_count = 0 ∧
      p.blame_count = 0 ∧ p.net_score = 0 := by
  induction ns with
  | nil => intro pm h; exact h
  | cons n rest ih =>
    intro pm h
    refine ih (addPlayer pm n) ?_
    intro p hp
    unfold addPlayer at hp
    split at hp
    · exact h p hp
    · rcases List.mem_append.mp hp with hp' | hp'
      · exact h p hp'
      · rcases List.mem_singleton.mp hp' with rfl
        exact ⟨rfl, rfl, rfl, rfl⟩

theorem game_branch_valid (line : Str) (toks : Quad SeatToken)
    (htoks : match_game_line line = some toks) (maxf ln : ℕ)
    (wi : Option (Fin 4)) (wf : Option ℕ)
    (bi : Option (Fin 4)) (bt : Option Char)
    (hef : extract_faan (Quad.ofFn fun i => normalise_faan (toks.get i))
      maxf ln = .ok (wi, wf))
    (heb : extract_blame (Quad.ofFn fun i => normalise_blame (toks.get i))
      ln = .ok (bi, bt))
    (hcond1 : ¬(wi = none ∧ bt ≠ none ∧ bt ≠ some 'f'))
    (hcond2 : ¬(wi ≠ none ∧ bt = some 'f'))
    (date : Option Str) (base : ℚ) (resp spic : Str) (ns : Quad Str)
    (hresp : resp = "half".toList ∨ resp = "full".toList)
    (hspic : spic = "half".toList ∨ spic = "spicy".toList)
    (hinj : Function.Injective ns.get) :
    ValidGame ⟨date, base, maxf, resp, spic, ns, wi, wf, bi, bt⟩ := by
  have hfs := extract_faan_spec _ _ _ _ _ hef
  have hbs := extract_blame_spec _ _ _ _ heb
  refine ⟨hresp, hspic, ?_, ?_, ?_, ?_, ?_, ?_, hinj⟩
  · show wi = none ↔ wf = none
    rcases hfs with ⟨h1, h2⟩ | ⟨i, f, h1, h2, -, -⟩ <;> rw [h1, h2] <;> simp
  · show bi = none ↔ bt = none
    rcases hbs with ⟨h1, h2⟩ | ⟨i, h1, h2, h3⟩
    · simp [h1, h2]
    · obtain ⟨c, hc⟩ := Option.isSome_iff_exists.mp h3
      rw [h1, h2, hc]
      simp
  · show ∀ c, bt = some c → c = 'd' ∨ c = 'D' ∨ c = 'S' ∨ c = 'f'
    intro c hc
    rcases hbs with ⟨-, h2⟩ | ⟨i, -, h2, -⟩
    · rw [h2] at hc
      exact absurd hc (by simp)
    · rw [h2, Quad.get_ofFn] at hc
      exact match_game_blame_vocab line toks htoks i c hc
  · show wi = none → bt = none ∨ bt = some 'f'
    intro hwnone
    simp only [not_and_or, not_not] at hcond1
    rcases hcond1 with h1 | h1 | h1
    · exact absurd hwnone h1
    · exact Or.inl h1
    · exact Or.inr h1
  · show wi ≠ none → bt ≠ some 'f'
    intro hwsome
    simp only [not_and_or, not_not] at hcond2
    rcases hcond2 with h1 | h1
    · exact absurd h1 hwsome
    · exact h1
  · show ∀ i j, wi = some i → bi = some j → i ≠ j
    intro i j hwi hbj
    rcases hfs with ⟨h1, -⟩ | ⟨i', f, h1, -, h3, -⟩
    · rw [h1] at hwi
      exact absurd hwi (by simp)
    · rcases hbs with ⟨h4, -⟩ | ⟨j', h4, -, h6⟩
      · rw [h4] at hbj
        exact absurd hbj (by simp)
      · rw [h1] at hwi
        injection hwi with hwi
        rw [h4] at hbj
        injection hbj with hbj
        intro hij
        rw [hwi, Quad.get_ofFn] at h3
        have hnb := normalise_faan_blame_excl (toks.get i) f h3
        rw [hbj, ← hij, Quad.get_ofFn, hnb] at h6
        exact absurd h6 (by simp)

theorem parseLine_inv (sd ed : Option Str) (ln : ℕ) (st st' : ParseState)
    (line : Str) (hinv : StInv st)
    (h : parseLine sd ed ln st line = .ok st') : StInv st' := by
  obtain ⟨hresp, hspic, hnames, hgames, hplayers⟩ := hinv
  unfold parseLine at h
  split at h
  · -- a date line
    split at h
    · split at h
      · exact absurd h (by simp)
      · injection h with h
        subst h
        exact ⟨hresp, hspic, hnames, hgames, hplayers⟩
    · injection h with h
      subst h
      exact ⟨hresp, hspic, hnames, hgames, hplayers⟩
  · -- not a date line
    split at h
    · -- skipped by the start-date filter
      injection h with h
      subst h
      exact ⟨hresp, hspic, hnames, hgames, hplayers⟩
    split at h
    · -- skipped by the end-date filter
      injection h with h
      subst h
      exact ⟨hresp, hspic, hnames, hgames, hplayers⟩
    split at h
    · -- a base declaration
      split at h
      · injection h with h
        subst h
        exact ⟨hresp, hspic, hnames, hgames, hplayers⟩
      · exact absurd h (by simp)
    split at h
    · -- a maximum-faan declaration
      injection h with h
      subst h
      exact ⟨hresp, hspic, hnames, hgames, hplayers⟩
    split at h
    · -- a responsibility declaration
      rename_i r hr
      injection h with h
      subst h
      exact ⟨responsibility_vocab line r hr, hspic, hnames, hgames, hplayers⟩
    split at h
    · -- a spiciness declaration
      rename_i s hs
      injection h with h
      subst h
      exact ⟨hresp, spiciness_vocab line s hs, hnames, hgames, hplayers⟩
    split at h
    · -- a roster declaration
      rename_i ns hns
      split at h
      · exact absurd h (by simp)
      · rename_i hdup
        injection h with h
        subst h
        refine ⟨hresp, hspic, ?_, hgames, ?_⟩
        · intro ns' hns'
          injection hns' with hns'
          subst hns'
          exact quad_get_injective ns
            (get_duplicates_nil_nodup ns.toList (not_ne_iff.mp hdup))
        · exact foldl_addPlayer_zero ns.toList st.players hplayers
    split at h
    · -- a game line
      rename_i toks htoks
      split at h
      · exact absurd h (by simp)
      · rename_i ns hns
        dsimp only at h
        split at h
        · exact absurd h (by simp)
        · rename_i winner_index winner_faan hef
          split at h
          · exact absurd h (by simp)
          · rename_i blame_index blame_type heb
            split at h
            · exact absurd h (by simp)
            split at h
            · exact absurd h (by simp)
            split at h
            · exact absurd h (by simp)
            rename_i hcond1 hcond2 hcond3
            injection h with h
            subst h
            refine ⟨hresp, hspic, hnames, ?_, hplayers⟩
            intro g hg
            rcases List.mem_append.mp hg with hg' | hg'
            · exact hgames g hg'
            rcases List.mem_singleton.mp hg' with rfl
            exact game_branch_valid line toks htoks st.maximum_faan ln _ _ _ _
              hef heb hcond1 hcond2 st.date st.base st.responsibility
              st.spiciness ns hresp hspic (hnames ns hns)
    split at h
    · -- a comment or blank line
      injection h with h
      subst h
      exact ⟨hresp, hspic, hnames, hgames, hplayers⟩
    · exact absurd h (by simp)

theorem initState_inv : StInv initState := by
  refine ⟨Or.inr rfl, Or.inl rfl, ?_, ?_, ?_⟩ <;> simp [initState, StInv]

theorem parseLines_inv (sd ed : Option Str) :
    ∀ (ls : List Str) (ln : ℕ) (st st' : ParseState), StInv st →
    parseLines sd ed ln st ls = .ok st' → StInv st' := by
  intro ls
  induction ls with
  | nil =>
    intro ln st st' hinv h
    unfold parseLines at h
    injection h with h
    subst h
    exact hinv
  | cons l rest ih =>
    intro ln st st' hinv h
    unfold parseLines at h
    split at h
    · exact absurd h (by simp)
    · rename_i st1 hst1
      exact ih (ln + 1) st1 st' (parseLine_inv sd ed ln st st1 l hinv hst1) h

theorem parse_ok_spec (lines : List Str) (sd ed : Option Str)
    (r : List Player × List Game) (h : parse lines sd ed = .ok r) :
    ∃ st pm, parseLines sd ed 1 initState lines = .ok st ∧ StInv st ∧
      applyGames st.players st.games = some pm ∧
      r = ((pm ++ [mkEveryone pm]).map Player.update_averages, st.games) := by
  unfold parse at h
  split at h
  · exact absurd h (by simp)
  · rename_i st hst
    split at h
    · exact absurd h (by simp)
    · rename_i pm hpm
      injection h with h
      exact ⟨st, pm, hst,
        parseLines_inv sd ed lines 1 initState st initState_inv hst, hpm,
        h.symm⟩

/-- C1 (amended): in exact rational arithmetic the score engine balances:
for every game constructed by `parse`, the 4-element vector computed by
`compute_net_scores` sums to exactly zero.  Under the program's binary64
arithmetic, which takes over once a fractional base has been declared,
the sum can instead be a one-ulp rounding residue, so exact zero holds
only up to floating-point rounding there (see the counterexample below
on `compute_net_scores_fl`). -/
theorem parse_game_zero_sum (lines : List Str) (sd ed : Option Str)
    (r : List Player × List Game) (g : Game)
    (hp : parse lines sd ed = .ok r) (hg : g ∈ r.2) :
    ∃ v, compute_net_scores g.base g.maximum_faan g.responsibility
        g.spiciness g.winner_index g.winner_faan g.blame_index g.blame_type
        = some v ∧ v.q0 + v.q1 + v.q2 + v.q3 = 0 := by
  obtain ⟨st, pm, -, hinv, -, hr⟩ := parse_ok_spec lines sd ed r hp
  subst hr
  exact valid_game_net_scores g (hinv.2.2.2.1 g hg)

/-- Witness for C1: a parse of a roster plus one draw game. -/
theorem parse_game_zero_sum_witness :
    ∃ v, compute_net_scores 1 13 "full".toList "half".toList
        none none none none
      = some v ∧ v.q0 + v.q1 + v.q2 + v.q3 = 0 :=
  parse_game_zero_sum ["A B C D".toList, "- - - -".toList] none none
    ([⟨"A".toList, 1, 0, 0, 0, some 0, some 0, some 0⟩,
      ⟨"B".toList, 1, 0, 0, 0, some 0, some 0, some 0⟩,
      ⟨"C".toList, 1, 0, 0, 0, some 0, some 0, some 0⟩,
      ⟨"D".toList, 1, 0, 0, 0, some 0, some 0, some 0⟩,
      ⟨"*".toList, 4, 0, 0, 0, some 0, some 0, some 0⟩],
     [⟨none, 1, 13, "full".toList, "half".toList,
       ⟨"A".toList, "B".toList, "C".toList, "D".toList⟩,
       none, none, none, none⟩])
    ⟨none, 1, 13, "full".toList, "half".toList,
      ⟨"A".toList, "B".toList, "C".toList, "D".toList⟩,
      none, none, none, none⟩
    (by with_unfolding_all decide) (by with_unfolding_all decide)

/-- C9: the score engine is total on games constructed by `parse` — no
`RuntimeError` ("implementation error") branch of `compute_net_scores` or
`compute_score_portion` is reachable from a parsed game. -/
theorem engine_total_on_parse (lines : List Str) (sd ed : Option Str)
    (r : List Player × List Game) (g : Game)
    (hp : parse lines sd ed = .ok r) (hg : g ∈ r.2) :
    (compute_net_scores g.base g.maximum_faan g.responsibility
      g.spiciness g.winner_index g.winner_faan g.blame_index
      g.blame_type).isSome = true := by
  obtain ⟨v, hv, -⟩ := parse_game_zero_sum lines sd ed r g hp hg
  rw [hv]
  rfl

/-- Witness for C9 on a concrete parsed game (a won game with a
discarder). -/
theorem engine_total_on_parse_witness :
    (compute_net_scores 1 13 "full".toList "half".toList
      (some 0) (some 3) (some 1) (some 'd')).isSome = true :=
  engine_total_on_parse ["A B C D".toList, "3 d - -".toList] none none
    ([⟨"A".toList, 1, 1, 0, 16, some 1, some 0, some 16⟩,
      ⟨"B".toList, 1, 0, 1, -16, some 0, some 1, some (-16)⟩,
      ⟨"C".toList, 1, 0, 0, 0, some 0, some 0, some 0⟩,
      ⟨"D".toList, 1, 0, 0, 0, some 0, some 0, some 0⟩,
      ⟨"*".toList, 4, 1, 1, 0, some (1/4), some (1/4), some 0⟩],
     [⟨none, 1, 13, "full".toList, "half".toList,
       ⟨"A".toList, "B".toList, "C".toList, "D".toList⟩,
       some 0, some 3, some 1, some 'd'⟩])
    ⟨none, 1, 13, "full".toList, "half".toList,
      ⟨"A".toList, "B".toList, "C".toList, "D".toList⟩,
      some 0, some 3, some 1, some 'd'⟩
    (by with_unfolding_all decide) (by with_unfolding_all decide)

/-- C10: in every game constructed by `parse`, a winner seat and a blamed
seat, when both present, are distinct (each seat token is exclusively a
faan entry or a blame symbol). -/
theorem parse_winner_ne_blame (lines : List Str) (sd ed : Option Str)
    (r : List Player × List Game) (g : Game) (i j : Fin 4)
    (hp : parse lines sd ed = .ok r) (hg : g ∈ r.2)
    (hwi : g.winner_index = some i) (hbj : g.blame_index = some j) :
    i ≠ j := by
  obtain ⟨st, pm, -, hinv, -, hr⟩ := parse_ok_spec lines sd ed r hp
  subst hr
  exact (hinv.2.2.2.1 g hg).2.2.2.2.2.2.2.1 i j hwi hbj

/-- Witness for C10 on a concrete parsed game with winner seat 0 and
blamed seat 1. -/
theorem parse_winner_ne_blame_witness : (0 : Fin 4) ≠ 1 :=
  parse_winner_ne_blame ["A B C D".toList, "3 d - -".toList] none none
    ([⟨"A".toList, 1, 1, 0, 16, some 1, some 0, some 16⟩,
      ⟨"B".toList, 1, 0, 1, -16, some 0, some 1, some (-16)⟩,
      ⟨"C".toList, 1, 0, 0, 0, some 0, some 0, some 0⟩,
      ⟨"D".toList, 1, 0, 0, 0, some 0, some 0, some 0⟩,
      ⟨"*".toList, 4, 1, 1, 0, some (1/4), some (1/4), some 0⟩],
     [⟨none, 1, 13, "full".toList, "half".toList,
       ⟨"A".toList, "B".toList, "C".toList, "D".toList⟩,
       some 0, some 3, some 1, some 'd'⟩])
    ⟨none, 1, 13, "full".toList, "half".toList,
      ⟨"A".toList, "B".toList, "C".toList, "D".toList⟩,
      some 0, some 3, some 1, some 'd'⟩
    0 1
    (by with_unfolding_all decide) (by with_unfolding_all decide) rfl rfl

theorem match_date_line_some (l t0 : Str) (h : match_date_line l = some t0) :
    lineTokens l = [t0] ∧ dateTok t0 = true := by
  unfold match_date_line at h
  split at h
  · rename_i t heq
    split at h
    · rename_i htok
      injection h with h
      subst h
      exact ⟨heq, htok⟩
    · exact absurd h (by simp)
  · exact absurd h (by simp)

theorem match_base_line_some (l r : Str) (h : match_base_line l = some r) :
    ∃ t, lineTokens l = [t] ∧ baseTok t = some r := by
  unfold match_base_line at h
  split at h
  · rename_i t heq
    exact ⟨t, heq, h⟩
  · exact absurd h (by simp)

theorem match_maximum_line_some (l r : Str)
    (h : match_maximum_line l = some r) :
    ∃ t, lineTokens l = [t] ∧ maximumTok t = some r := by
  unfold match_maximum_line at h
  split at h
  · rename_i t heq
    exact ⟨t, heq, h⟩
  · exact absurd h (by simp)

theorem match_responsibility_line_some (l r : Str)
    (h : match_responsibility_line l = some r) :
    ∃ t, lineTokens l = [t] ∧ responsibilityTok t = some r := by
  unfold match_responsibility_line at h
  split at h
  · rename_i t heq
    exact ⟨t, heq, h⟩
  · exact absurd h (by simp)

theorem match_spiciness_line_some (l r : Str)
    (h : match_spiciness_line l = some r) :
    ∃ t, lineTokens l = [t] ∧ spicinessTok t = some r := by
  unfold match_spiciness_line at h
  split at h
  · rename_i t heq
    exact ⟨t, heq, h⟩
  · exact absurd h (by simp)

theorem match_players_line_some (l : Str) (q : Quad Str)
    (h : match_players_line l = some q) :
    lineTokens l = [q.q0, q.q1, q.q2, q.q3] ∧ nameTok q.q0 = true ∧
      nameTok q.q1 = true ∧ nameTok q.q2 = true ∧ nameTok q.q3 = true := by
  unfold match_players_line at h
  split at h
  · rename_i a b c d heq
    split at h
    · rename_i hnames
      injection h with h
      subst h
      simp only [Bool.and_eq_true] at hnames
      exact ⟨heq, hnames.1.1.1, hnames.1.1.2, hnames.1.2, hnames.2⟩
    · exact absurd h (by simp)
  · exact absurd h (by simp)

theorem match_comment_line_true (l : Str) (h : match_comment_line l = true) :
    lineTokens l = [] := by
  simpa [match_comment_line] using h

theorem baseTok_head (t : Str) (r : Str) (h : baseTok t = some r) :
    t.getD 0 ' ' = 'B' := by
  unfold baseTok at h
  split at h
  · rfl
  · exact absurd h (by simp)

theorem maximumTok_head (t : Str) (r : Str) (h : maximumTok t = some r) :
    t.getD 0 ' ' = 'M' := by
  unfold maximumTok at h
  split at h
  · rfl
  · exact absurd h (by simp)

theorem responsibilityTok_head (t : Str) (r : Str)
    (h : responsibilityTok t = some r) : t.getD 0 ' ' = 'R' := by
  unfold responsibilityTok at h
  split at h
  · rename_i heq
    subst heq
    rfl
  · split at h
    · rename_i heq
      subst heq
      rfl
    · exact absurd h (by simp)

theorem spicinessTok_head (t : Str) (r : Str)
    (h : spicinessTok t = some r) : t.getD 0 ' ' = 'S' := by
  unfold spicinessTok at h
  split at h
  · rename_i heq
    subst heq
    rfl
  · split at h
    · rename_i heq
      subst heq
      rfl
    · exact absurd h (by simp)

theorem dateTok_head (t : Str) (h : dateTok t = true) :
    isDigit (t.getD 0 ' ') = true := by
  simp only [dateTok, Bool.and_eq_true] at h
  exact h.1.1.1.1.1.1.1.1.1.2

/-- The 8 grammar forms of the line classifier, in the priority order the
parse loop tries them (dates first, comments last). -/
inductive LineForm where
  | date
  | base
  | maximum
  | responsibility
  | spiciness
  | roster
  | game
  | comment
deriving DecidableEq

/-- Whether a physical line matches a given grammar form. -/
def formMatches : LineForm → Str → Bool
  | .date, l => (match_date_line l).isSome
  | .base, l => (match_base_line l).isSome
  | .maximum, l => (match_maximum_line l).isSome
  | .responsibility, l => (match_responsibility_line l).isSome
  | .spiciness, l => (match_spiciness_line l).isSome
  | .roster, l => (match_players_line l).isSome
  | .game, l => (match_game_line l).isSome
  | .comment, l => match_comment_line l

/-- Number of whitespace-separated tokens a matched form forces. -/
def formLen : LineForm → ℕ
  | .comment => 0
  | .roster => 4
  | .game => 4
  | _ => 1

/-- First character of the first token of a line. -/
def headVal (l : Str) : Char :=
  ((lineTokens l).getD 0 []).getD 0 ' '

/-- Constraint a matched form places on the first character of the first
token. -/
def headClass : LineForm → Char → Prop
  | .date, c => isDigit c = true
  | .base, c => c = 'B'
  | .maximum, c => c = 'M'
  | .responsibility, c => c = 'R'
  | .spiciness, c => c = 'S'
  | _, _ => True

theorem formMatches_len (f : LineForm) (l : Str)
    (h : formMatches f l = true) : (lineTokens l).length = formLen f := by
  cases f
  · obtain ⟨t, ht⟩ := Option.isSome_iff_exists.mp h
    rw [(match_date_line_some l t ht).1]
    rfl
  · obtain ⟨r, hr⟩ := Option.isSome_iff_exists.mp h
    obtain ⟨t, ht, -⟩ := match_base_line_some l r hr
    rw [ht]
    rfl
  · obtain ⟨r, hr⟩ := Option.isSome_iff_exists.mp h
    obtain ⟨t, ht, -⟩ := match_maximum_line_some l r hr
    rw [ht]
    rfl
  · obtain ⟨r, hr⟩ := Option.isSome_iff_exists.mp h
    obtain ⟨t, ht, -⟩ := match_responsibility_line_some l r hr
    rw [ht]
    rfl
  · obtain ⟨r, hr⟩ := Option.isSome_iff_exists.mp h
    obtain ⟨t, ht, -⟩ := match_spiciness_line_some l r hr
    rw [ht]
    rfl
  · obtain ⟨q, hq⟩ := Option.isSome_iff_exists.mp h
    rw [(match_players_line_some l q hq).1]
    rfl
  · obtain ⟨toks, htoks⟩ := Option.isSome_iff_exists.mp h
    obtain ⟨a, b, c, d, ht, -⟩ := match_game_line_spec l toks htoks
    rw [ht]
    rfl
  · rw [match_comment_line_true l h]
    rfl

theorem formMatches_head (f : LineForm) (l : Str)
    (h : formMatches f l = true) : headClass f (headVal l) := by
  cases f
  · obtain ⟨t, ht⟩ := Option.isSome_iff_exists.mp h
    obtain ⟨h1, h2⟩ := match_date_line_some l t ht
    show isDigit (headVal l) = true
    rw [headVal, h1]
    exact dateTok_head t h2
  · obtain ⟨r, hr⟩ := Option.isSome_iff_exists.mp h
    obtain ⟨t, ht, htok⟩ := match_base_line_some l r hr
    show headVal l = 'B'
    rw [headVal, ht]
    exact baseTok_head t r htok
  · obtain ⟨r, hr⟩ := Option.isSome_iff_exists.mp h
    obtain ⟨t, ht, htok⟩ := match_maximum_line_some l r hr
    show headVal l = 'M'
    rw [headVal, ht]
    exact maximumTok_head t r htok
  · obtain ⟨r, hr⟩ := Option.isSome_iff_exists.mp h
    obtain ⟨t, ht, htok⟩ := match_responsibility_line_some l r hr
    show headVal l = 'R'
    rw [headVal, ht]
    exact responsibilityTok_head t r htok
  · obtain ⟨r, hr⟩ := Option.isSome_iff_exists.mp h
    obtain ⟨t, ht, htok⟩ := match_spiciness_line_some l r hr
    show headVal l = 'S'
    rw [headVal, ht]
    exact spicinessTok_head t r htok
  · trivial
  · trivial
  · trivial

/-- C5 (amended): two distinct grammar forms never match the same line,
except that the roster form and the game form can both match (e.g. a line
of four single-letter blame tokens, which parses as four player names and
as four blame symbols). -/
theorem line_forms_overlap (l : Str) (f g : LineForm) (hne : f ≠ g)
    (hf : formMatches f l = true) (hg : formMatches g l = true) :
    (f = .roster ∧ g = .game) ∨ (f = .game ∧ g = .roster) := by
  have hlf := formMatches_len f l hf
  have hlg := formMatches_len g l hg
  have hhf := formMatches_head f l hf
  have hhg := formMatches_head g l hg
  cases f <;> cases g <;> simp_all [formLen, headClass, isDigit]

/-- Witness for the amended C5: the line `d D S f` matches both the roster
form and the game form, and these are the excepted pair. -/
theorem line_forms_overlap_witness :
    (LineForm.roster = .roster ∧ LineForm.game = .game) ∨
    (LineForm.roster = .game ∧ LineForm.game = .roster) :=
  line_forms_overlap "d D S f".toList .roster .game (by decide)
    (by decide) (by decide)

/-- Counterexample to C5 as stated: the 8 forms are not mutually
exclusive — the line `d D S f` matches both the roster form (6) and the
game form (7). -/
theorem line_forms_not_mutually_exclusive :
    (match_players_line "d D S f".toList).isSome = true ∧
    (match_game_line "d D S f".toList).isSome = true := by
  decide

/-- C4 (amended): date lines are always processed, independently of any
window; every other line — declaration, roster, game or otherwise — is
skipped without effect or error exactly when the current date falls
outside a supplied window, a missing current date counting as outside any
bound. -/
theorem date_filter_step (sd ed : Option Str) (ln : ℕ) (st : ParseState)
    (l : Str) :
    ((skipStart sd st.date || skipEnd ed st.date) = true →
      match_date_line l = none → parseLine sd ed ln st l = .ok st) ∧
    (∀ d, match_date_line l = some d →
      parseLine sd ed ln st l = parseLine none none ln st l) := by
  constructor
  · intro hskip hdate
    unfold parseLine
    rw [hdate]
    dsimp only
    cases hss : skipStart sd st.date
    · cases hse : skipEnd ed st.date
      · rw [hss, hse] at hskip
        exact absurd hskip (by decide)
      · simp
    · simp
  · intro d hdate
    unfold parseLine
    rw [hdate]

/-- Witness for the amended C4: with start date `2024-01-01` and no date
seen yet, the declaration `B=2` is a no-op, while a date line is processed
exactly as without a window. -/
theorem date_filter_step_witness :
    parseLine (some "2024-01-01".toList) none 1 initState "B=2".toList
      = .ok initState ∧
    parseLine (some "2024-01-01".toList) none 1 initState
        "2024-03-03".toList
      = parseLine none none 1 initState "2024-03-03".toList :=
  ⟨(date_filter_step (some "2024-01-01".toList) none 1 initState
      "B=2".toList).1 (by decide) (by decide),
   (date_filter_step (some "2024-01-01".toList) none 1 initState
      "2024-03-03".toList).2 "2024-03-03".toList (by decide)⟩

theorem readSeatToken_faan (t : Str) (n : ℕ)
    (hf : readSeatToken t = some (.faan n)) :
    (!t.isEmpty && t.all isDigit) = true := by
  unfold readSeatToken at hf
  split at hf
  · rename_i hcond
    exact hcond
  · split at hf
    · split at hf
      · exact absurd hf (by simp)
      · exact absurd hf (by simp)
    · exact absurd hf (by simp)

theorem faan_token_not_name (t : Str) (n : ℕ)
    (hf : readSeatToken t = some (.faan n)) : nameTok t = false := by
  have hcond := readSeatToken_faan t n hf
  simp only [Bool.and_eq_true] at hcond
  obtain ⟨hne, hall⟩ := hcond
  cases t with
  | nil => simp at hne
  | cons c cs =>
    have hc : isDigit c = true :=
      List.all_eq_true.mp hall c (List.mem_cons_self c cs)
    simp [nameTok, isNameStart, hc]

theorem game_line_with_faan_no_players (l : Str) (toks : Quad SeatToken)
    (i : Fin 4) (n : ℕ) (hm : match_game_line l = some toks)
    (hfi : toks.get i = .faan n) : match_players_line l = none := by
  cases hp : match_players_line l with
  | none => rfl
  | some q =>
    exfalso
    obtain ⟨hq, hn0, hn1, hn2, hn3⟩ := match_players_line_some l q hp
    obtain ⟨a, b, c, d, hg, ha, hb, hc, hd⟩ := match_game_line_spec l toks hm
    rw [hq] at hg
    injection hg with e0 hg
    injection hg with e1 hg
    injection hg with e2 hg
    injection hg with e3 htail
    fin_cases i
    · have hq0 : toks.q0 = SeatToken.faan n := hfi
      rw [hq0] at ha
      rw [e0] at hn0
      rw [faan_token_not_name a n ha] at hn0
      exact Bool.noConfusion hn0
    · have hq1 : toks.q1 = SeatToken.faan n := hfi
      rw [hq1] at hb
      rw [e1] at hn1
      rw [faan_token_not_name b n hb] at hn1
      exact Bool.noConfusion hn1
    · have hq2 : toks.q2 = SeatToken.faan n := hfi
      rw [hq2] at hc
      rw [e2] at hn2
      rw [faan_token_not_name c n hc] at hn2
      exact Bool.noConfusion hn2
    · have hq3 : toks.q3 = SeatToken.faan n := hfi
      rw [hq3] at hd
      rw [e3] at hn3
      rw [faan_token_not_name d n hd] at hn3
      exact Bool.noConfusion hn3

theorem game_line_no_single (l : Str) (toks : Quad SeatToken)
    (hm : match_game_line l = some toks) :
    match_date_line l = none ∧ match_base_line l = none ∧
    match_maximum_line l = none ∧ match_responsibility_line l = none ∧
    match_spiciness_line l = none := by
  have hlen : (lineTokens l).length = 4 :=
    formMatches_len .game l (by simp [formMatches, hm])
  refine ⟨?_, ?_, ?_, ?_, ?_⟩
  · cases h : match_date_line l with
    | none => rfl
    | some v =>
      have := formMatches_len .date l (by simp [formMatches, h])
      rw [hlen] at this
      exact absurd this (by decide)
  · cases h : match_base_line l with
    | none => rfl
    | some v =>
      have := formMatches_len .base l (by simp [formMatches, h])
      rw [hlen] at this
      exact absurd this (by decide)
  · cases h : match_maximum_line l with
    | none => rfl
    | some v =>
      have := formMatches_len .maximum l (by simp [formMatches, h])
      rw [hlen] at this
      exact absurd this (by decide)
  · cases h : match_responsibility_line l with
    | none => rfl
    | some v =>
      have := formMatches_len .responsibility l (by simp [formMatches, h])
      rw [hlen] at this
      exact absurd this (by decide)
  · cases h : match_spiciness_line l with
    | none => rfl
    | some v =>
      have := formMatches_len .spiciness l (by simp [formMatches, h])
      rw [hlen] at this
      exact absurd this (by decide)

/-- C6 (amended): whenever the parse loop actually processes a game-form
line carrying two or more faan (digit) entries — i.e. a roster has been
declared and the line is not skipped by the date window — the step raises
the multiple-winners error. -/
theorem game_line_multiple_winners (sd ed : Option Str) (ln : ℕ)
    (st : ParseState) (l : Str) (toks : Quad SeatToken) (ns : Quad Str)
    (hskip1 : skipStart sd st.date = false)
    (hskip2 : skipEnd ed st.date = false)
    (hm : match_game_line l = some toks) (hns : st.names = some ns)
    (h2 : 1 < ((List.finRange 4).filter
      (fun i => (normalise_faan (toks.get i)).isSome)).length) :
    parseLine sd ed ln st l = .error (.multipleWinners ln) := by
  have hsingle := game_line_no_single l toks hm
  have hex : ∃ i n, toks.get i = .faan n := by
    have hnonempty : ((List.finRange 4).filter
        (fun i => (normalise_faan (toks.get i)).isSome)) ≠ [] := by
      intro hcontra
      rw [hcontra] at h2
      exact absurd h2 (by decide)
    obtain ⟨i, hi⟩ := List.exists_mem_of_ne_nil _ hnonempty
    have hsome := (List.mem_filter.mp hi).2
    cases hs : toks.get i with
    | faan n => exact ⟨i, n, hs⟩
    | blame ch =>
      rw [hs] at hsome
      exact absurd hsome (by simp [normalise_faan])
  obtain ⟨i, n, hfi⟩ := hex
  have hplayers := game_line_with_faan_no_players l toks i n hm hfi
  have hef : extract_faan (Quad.ofFn fun i => normalise_faan (toks.get i))
      st.maximum_faan ln = .error (.multipleWinners ln) := by
    unfold extract_faan
    dsimp only
    rw [if_pos]
    have harg : ((List.finRange 4).filter (fun i =>
        ((Quad.ofFn fun i => normalise_faan (toks.get i)).get i).isSome))
        = ((List.finRange 4).filter
          (fun i => (normalise_faan (toks.get i)).isSome)) := by
      apply List.filter_congr
      intro i hi
      rw [Quad.get_ofFn]
    rw [harg]
    exact h2
  unfold parseLine
  simp [hsingle.1, hsingle.2.1, hsingle.2.2.1, hsingle.2.2.2.1,
    hsingle.2.2.2.2, hskip1, hskip2, hplayers, hm, hns, hef]

/-- Witness for the amended C6: the line `0 0 - -` processed with a
declared roster raises the multiple-winners error. -/
theorem game_line_multiple_winners_witness :
    parseLine none none 2
      ⟨[mkPlayer "A".toList, mkPlayer "B".toList, mkPlayer "C".toList,
        mkPlayer "D".toList], [], none, 1, 13, "full".toList,
        "half".toList,
        some ⟨"A".toList, "B".toList, "C".toList, "D".toList⟩⟩
      "0 0 - -".toList = .error (.multipleWinners 2) :=
  game_line_multiple_winners none none 2 _ "0 0 - -".toList
    ⟨.faan 0, .faan 0, .blame '-', .blame '-'⟩
    ⟨"A".toList, "B".toList, "C".toList, "D".toList⟩
    (by decide) (by decide) (by decide) (by decide) (by decide)

/-- Counterexample to C6 as stated: an input text containing the
two-faan game line `0 0 - -` on which `parse` raises the no-players
error, not the multiple-winners error. -/
theorem multiple_winners_not_always :
    parse ["0 0 - -".toList] none none = .error (.noPlayers 1) ∧
    Err.noPlayers 1 ≠ Err.multipleWinners 1 := by
  constructor
  · with_unfolding_all decide
  · decide

/-- Embedding of `Player.rank`, first component: `is_everyone`. -/
def Player.is_everyone (p : Player) : Bool :=
  p.name = "*".toList

/-- Embedding of `Player.rank`, second component
`-net_score_per_game` with `None` mapped to `-math.inf`: the negation of
`-inf` is `+inf`, represented here by `none` and treated as greater than
every rational by the comparators below. -/
def Player.rankKey (p : Player) : Option ℚ :=
  p.net_score_per_game.map fun x => -x

/-- Strict comparison on the second rank component (`none` = `+inf`). -/
def extLt : Option ℚ → Option ℚ → Bool
  | none, _ => false
  | some _, none => true
  | some a, some b => a < b

/-- Equality on the second rank component (`+inf` equals `+inf`). -/
def extEq : Option ℚ → Option ℚ → Bool
  | none, none => true
  | some a, some b => a = b
  | _, _ => false

/-- Embedding of `Player.__lt__`: Python tuple comparison of the
`rank()` triples `(is_everyone, -net_score_per_game, name)` (booleans
compare as `False < True`, strings lexicographically). -/
def Player.rank_lt (p q : Player) : Bool :=
  (!p.is_everyone && q.is_everyone) ||
  ((p.is_everyone == q.is_everyone) &&
    (extLt p.rankKey q.rankKey ||
      (extEq p.rankKey q.rankKey && strLt p.name q.name)))

/-- Reference definition, written from the spec's words: the synthetic
aggregate sorts last; among records of the same kind, descending
`net_score_per_game` with an undefined ratio worst, ties broken by
ascending name. -/
def nspg_better (p q : Player) : Bool :=
  match p.net_score_per_game, q.net_score_per_game with
  | some a, some b => b < a
  | some _, none => true
  | _, _ => false

def nspg_same (p q : Player) : Bool :=
  match p.net_score_per_game, q.net_score_per_game with
  | some a, some b => a = b
  | none, none => true
  | _, _ => false

def spec_lt (p q : Player) : Bool :=
  if p.is_everyone && !q.is_everyone then false
  else if !p.is_everyone && q.is_everyone then true
  else nspg_better p q || (nspg_same p q && strLt p.name q.name)

theorem strLt_asymm_total (a : Str) :
    ∀ b : Str, a ≠ b → (strLt a b = true ↔ strLt b a = false) := by
  induction a with
  | nil =>
    intro b hne
    cases b with
    | nil => exact absurd rfl hne
    | cons y ys => simp [strLt]
  | cons x xs ih =>
    intro b hne
    cases b with
    | nil => simp [strLt]
    | cons y ys =>
      by_cases hxy : x = y
      · subst hxy
        have hne' : xs ≠ ys := fun hc => hne (by rw [hc])
        simp [strLt, lt_irrefl, ih ys hne']
      · rcases lt_trichotomy x y with h | h | h
        · simp [strLt, h, hxy, lt_asymm h, Ne.symm hxy]
        · exact absurd h hxy
        · simp [strLt, h, hxy, lt_asymm h, Ne.symm hxy]

theorem key_total (x y : Option ℚ) (n1 n2 : Str) (hne : n1 ≠ n2) :
    ((extLt x y || (extEq x y && strLt n1 n2)) = true ↔
      (extLt y x || (extEq y x && strLt n2 n1)) = false) := by
  have hstr := strLt_asymm_total n1 n2 hne
  cases x with
  | none =>
    cases y with
    | none => simpa [extLt, extEq] using hstr
    | some b => simp [extLt, extEq]
  | some a =>
    cases y with
    | none => simp [extLt, extEq]
    | some b =>
      rcases lt_trichotomy a b with h | h | h
      · simp [extLt, extEq, h, lt_asymm h, h.ne, h.ne']
      · subst h
        simpa [extLt, extEq, lt_irrefl] using hstr
      · simp [extLt, extEq, h, lt_asymm h, h.ne, h.ne']

/-- C7: the comparator of `Player.__lt__` / `Player.rank` is exactly the
spec's described total order — synthetic `*` record always last,
descending `net_score_per_game` with an undefined ratio treated as worst,
ties broken by ascending declared name — and it linearly orders any two
records with distinct names. -/
theorem ranking_matches_spec :
    (∀ p q : Player, Player.rank_lt p q = spec_lt p q) ∧
    (∀ p q : Player, p.name ≠ q.name →
      (Player.rank_lt p q = true ↔ Player.rank_lt q p = false)) := by
  constructor
  · intro p q
    unfold Player.rank_lt spec_lt nspg_better nspg_same
    cases hpe : p.is_everyone <;> cases hqe : q.is_everyone <;>
      cases hp : p.net_score_per_game <;> cases hq : q.net_score_per_game <;>
        simp_all [extLt, extEq, Player.rankKey, neg_lt_neg_iff, neg_inj]
  · intro p q hname
    have hk := key_total p.rankKey q.rankKey p.name q.name hname
    unfold Player.rank_lt
    cases hpe : p.is_everyone <;> cases hqe : q.is_everyone <;> simp_all

/-- Witness for C7 at two concrete records: a real player versus the
synthetic aggregate (equivalence of the comparators), and two real
players with distinct names (linearity). -/
theorem ranking_matches_spec_witness :
    Player.rank_lt (mkPlayer "A".toList) (mkPlayer "*".toList)
      = spec_lt (mkPlayer "A".toList) (mkPlayer "*".toList) ∧
    (Player.rank_lt (mkPlayer "A".toList) (mkPlayer "B".toList) = true ↔
      Player.rank_lt (mkPlayer "B".toList) (mkPlayer "A".toList)
        = false) :=
  ⟨ranking_matches_spec.1 (mkPlayer "A".toList) (mkPlayer "*".toList),
   ranking_matches_spec.2 (mkPlayer "A".toList) (mkPlayer "B".toList)
     (by decide)⟩

theorem exists_fin4 (P : Fin 4 → Prop) : (∃ i, P i) ↔ P 0 ∨ P 1 ∨ P 2 ∨ P 3 := by
  constructor
  · rintro ⟨i, hi⟩
    fin_cases i
    · exact Or.inl hi
    · exact Or.inr (Or.inl hi)
    · exact Or.inr (Or.inr (Or.inl hi))
    · exact Or.inr (Or.inr (Or.inr hi))
  · rintro (h | h | h | h)
    exacts [⟨0, h⟩, ⟨1, h⟩, ⟨2, h⟩, ⟨3, h⟩]

theorem seatUpdate_name (g : Game) (ns : Quad ℚ) (i : Fin 4) (p : Player) :
    (seatUpdate g ns i p).name = p.name := by
  unfold seatUpdate
  split <;> rfl

theorem seatUpdate_game_count (g : Game) (ns : Quad ℚ) (i : Fin 4)
    (p : Player) : (seatUpdate g ns i p).game_count
      = p.game_count + (if p.name = g.names.get i then 1 else 0) := by
  unfold seatUpdate
  split <;> simp_all

theorem seatUpdate_win_count (g : Game) (ns : Quad ℚ) (i : Fin 4)
    (p : Player) : (seatUpdate g ns i p).win_count
      = p.win_count +
        (if p.name = g.names.get i ∧ g.winner_index = some i then 1
         else 0) := by
  unfold seatUpdate
  split <;> rename_i h
  · simp [h]
  · simp [h]

theorem seatUpdate_blame_count (g : Game) (ns : Quad ℚ) (i : Fin 4)
    (p : Player) : (seatUpdate g ns i p).blame_count
      = p.blame_count +
        (if p.name = g.names.get i ∧ g.blame_index = some i then 1
         else 0) := by
  unfold seatUpdate
  split <;> rename_i h
  · simp [h]
  · simp [h]

theorem update_mem (g : Game) (hinj : Function.Injective g.names.get)
    (pm pm' : List Player) (hu : g.update pm = some pm')
    (p' : Player) (hp' : p' ∈ pm') :
    ∃ p ∈ pm, p'.name = p.name ∧
      p'.game_count = p.game_count +
        (if ∃ i, g.names.get i = p'.name then 1 else 0) ∧
      p'.win_count = p.win_count +
        (if ∃ i, g.winner_index = some i ∧ g.names.get i = p'.name then 1
         else 0) ∧
      p'.blame_count = p.blame_count +
        (if ∃ i, g.blame_index = some i ∧ g.names.get i = p'.name then 1
         else 0) := by
  unfold Game.update at hu
  cases hcns : compute_net_scores g.base g.maximum_faan g.responsibility
      g.spiciness g.winner_index g.winner_faan g.blame_index
      g.blame_type with
  | none =>
    rw [hcns] at hu
    exact absurd hu (by simp)
  | some ns =>
    rw [hcns] at hu
    simp only [Option.map_some'] at hu
    injection hu with hu
    have h4 : List.finRange 4 = [0, 1, 2, 3] := by decide
    rw [h4] at hu
    simp only [List.foldl_cons, List.foldl_nil, List.map_map] at hu
    subst hu
    obtain ⟨p, hp, hcomp⟩ := List.mem_map.mp hp'
    subst hcomp
    have hne01 : g.names.get 0 ≠ g.names.get 1 :=
      fun hc => absurd (hinj hc) (by decide)
    have hne02 : g.names.get 0 ≠ g.names.get 2 :=
      fun hc => absurd (hinj hc) (by decide)
    have hne03 : g.names.get 0 ≠ g.names.get 3 :=
      fun hc => absurd (hinj hc) (by decide)
    have hne12 : g.names.get 1 ≠ g.names.get 2 :=
      fun hc => absurd (hinj hc) (by decide)
    have hne13 : g.names.get 1 ≠ g.names.get 3 :=
      fun hc => absurd (hinj hc) (by decide)
    have hne23 : g.names.get 2 ≠ g.names.get 3 :=
      fun hc => absurd (hinj hc) (by decide)
    refine ⟨p, hp, ?_, ?_, ?_, ?_⟩
    · simp [Function.comp, seatUpdate_name]
    · simp only [Function.comp, seatUpdate_name, seatUpdate_game_count,
        exists_fin4]
      by_cases h0 : p.name = g.names.get 0 <;>
        by_cases h1 : p.name = g.names.get 1 <;>
        by_cases h2 : p.name = g.names.get 2 <;>
        by_cases h3 : p.name = g.names.get 3 <;>
        first
        | exact absurd (hinj (h0.symm.trans h1)) (by decide)
        | exact absurd (hinj (h0.symm.trans h2)) (by decide)
        | exact absurd (hinj (h0.symm.trans h3)) (by decide)
        | exact absurd (hinj (h1.symm.trans h2)) (by decide)
        | exact absurd (hinj (h1.symm.trans h3)) (by decide)
        | exact absurd (hinj (h2.symm.trans h3)) (by decide)
        | (simp [h0, h1, h2, h3, eq_comm, hne01, hne02, hne03, hne12,
            hne13, hne23, hne01.symm, hne02.symm, hne03.symm, hne12.symm,
            hne13.symm, hne23.symm]; omega)
        | simp [h0, h1, h2, h3, eq_comm, hne01, hne02, hne03, hne12,
            hne13, hne23, hne01.symm, hne02.symm, hne03.symm, hne12.symm,
            hne13.symm, hne23.symm]
    · simp only [Function.comp, seatUpdate_name, seatUpdate_win_count,
        exists_fin4]
      by_cases h0 : p.name = g.names.get 0 <;>
        by_cases h1 : p.name = g.names.get 1 <;>
        by_cases h2 : p.name = g.names.get 2 <;>
        by_cases h3 : p.name = g.names.get 3 <;>
        first
        | exact absurd (hinj (h0.symm.trans h1)) (by decide)
        | exact absurd (hinj (h0.symm.trans h2)) (by decide)
        | exact absurd (hinj (h0.symm.trans h3)) (by decide)
        | exact absurd (hinj (h1.symm.trans h2)) (by decide)
        | exact absurd (hinj (h1.symm.trans h3)) (by decide)
        | exact absurd (hinj (h2.symm.trans h3)) (by decide)
        | (simp [h0, h1, h2, h3, eq_comm, hne01, hne02, hne03, hne12,
            hne13, hne23, hne01.symm, hne02.symm, hne03.symm, hne12.symm,
            hne13.symm, hne23.symm]; omega)
        | simp [h0, h1, h2, h3, eq_comm, hne01, hne02, hne03, hne12,
            hne13, hne23, hne01.symm, hne02.symm, hne03.symm, hne12.symm,
            hne13.symm, hne23.symm]
    · simp only [Function.comp, seatUpdate_name, seatUpdate_blame_count,
        exists_fin4]
      by_cases h0 : p.name = g.names.get 0 <;>
        by_cases h1 : p.name = g.names.get 1 <;>
        by_cases h2 : p.name = g.names.get 2 <;>
        by_cases h3 : p.name = g.names.get 3 <;>
        first
        | exact absurd (hinj (h0.symm.trans h1)) (by decide)
        | exact absurd (hinj (h0.symm.trans h2)) (by decide)
        | exact absurd (hinj (h0.symm.trans h3)) (by decide)
        | exact absurd (hinj (h1.symm.trans h2)) (by decide)
        | exact absurd (hinj (h1.symm.trans h3)) (by decide)
        | exact absurd (hinj (h2.symm.trans h3)) (by decide)
        | (simp [h0, h1, h2, h3, eq_comm, hne01, hne02, hne03, hne12,
            hne13, hne23, hne01.symm, hne02.symm, hne03.symm, hne12.symm,
            hne13.symm, hne23.symm]; omega)
        | simp [h0, h1, h2, h3, eq_comm, hne01, hne02, hne03, hne12,
            hne13, hne23, hne01.symm, hne02.symm, hne03.symm, hne12.symm,
            hne13.symm, hne23.symm]

theorem applyGames_counts (gs : List Game) :
    ∀ pm pm' : List Player,
    (∀ g ∈ gs, Function.Injective g.names.get) →
    applyGames pm gs = some pm' → ∀ p' ∈ pm', ∃ p ∈ pm,
      p'.name = p.name ∧
      p'.game_count = p.game_count + gs.countP
        (fun g => decide (∃ i, g.names.get i = p'.name)) ∧
      p'.win_count = p.win_count + gs.countP
        (fun g => decide (∃ i, g.winner_index = some i ∧
          g.names.get i = p'.name)) ∧
      p'.blame_count = p.blame_count + gs.countP
        (fun g => decide (∃ i, g.blame_index = some i ∧
          g.names.get i = p'.name)) := by
  induction gs with
  | nil =>
    intro pm pm' _ h p' hp'
    unfold applyGames at h
    injection h with h
    subst h
    exact ⟨p', hp', rfl, by simp, by simp, by simp⟩
  | cons g gs ih =>
    intro pm pm' hinj h p' hp'
    unfold applyGames at h
    split at h
    · rename_i pm1 hpm1
      obtain ⟨p1, hp1, hname, hgc, hwc, hbc⟩ :=
        ih pm1 pm' (fun g' hg' => hinj g' (List.mem_cons_of_mem g hg'))
          h p' hp'
      obtain ⟨p, hp, hname2, hgc2, hwc2, hbc2⟩ :=
        update_mem g (hinj g (List.mem_cons_self g gs)) pm pm1 hpm1 p1 hp1
      rw [← hname] at hgc2 hwc2 hbc2
      refine ⟨p, hp, hname.trans hname2, ?_, ?_, ?_⟩
      · rw [hgc, hgc2, List.countP_cons]
        simp only [decide_eq_true_eq]
        omega
      · rw [hwc, hwc2, List.countP_cons]
        simp only [decide_eq_true_eq]
        omega
      · rw [hbc, hbc2, List.countP_cons]
        simp only [decide_eq_true_eq]
        omega
    · exact absurd h (by simp)

/-- C8: after `parse` folds all accepted games, every real player record's
`game_count` counts exactly the accepted games in which its name holds a
seat, its `win_count` the games its seat won, and its `blame_count` the
games its seat was blamed in (each accepted game contributing exactly
once). -/
theorem aggregation_counts (lines : List Str) (sd ed : Option Str)
    (r : List Player × List Game) (p : Player)
    (hp : parse lines sd ed = .ok r) (hmem : p ∈ r.1)
    (hreal : p.name ≠ "*".toList) :
    p.game_count = r.2.countP
      (fun g => decide (∃ i, g.names.get i = p.name)) ∧
    p.win_count = r.2.countP
      (fun g => decide (∃ i, g.winner_index = some i ∧
        g.names.get i = p.name)) ∧
    p.blame_count = r.2.countP
      (fun g => decide (∃ i, g.blame_index = some i ∧
        g.names.get i = p.name)) := by
  obtain ⟨st, pm, -, hinv, hap, hr⟩ := parse_ok_spec lines sd ed r hp
  subst hr
  obtain ⟨p0, hp0, rfl⟩ := List.mem_map.mp hmem
  rcases List.mem_append.mp hp0 with hp0' | hp0'
  · obtain ⟨pb, hpb, hname, hgc, hwc, hbc⟩ :=
      applyGames_counts st.games st.players pm
        (fun g hg => (hinv.2.2.2.1 g hg).2.2.2.2.2.2.2.2) hap p0 hp0'
    obtain ⟨hz1, hz2, hz3, -⟩ := hinv.2.2.2.2 pb hpb
    refine ⟨?_, ?_, ?_⟩
    · show p0.game_count = st.games.countP
        (fun g => decide (∃ i, g.names.get i = p0.name))
      rw [hgc, hz1, Nat.zero_add]
    · show p0.win_count = st.games.countP
        (fun g => decide (∃ i, g.winner_index = some i ∧
          g.names.get i = p0.name))
      rw [hwc, hz2, Nat.zero_add]
    · show p0.blame_count = st.games.countP
        (fun g => decide (∃ i, g.blame_index = some i ∧
          g.names.get i = p0.name))
      rw [hbc, hz3, Nat.zero_add]
  · rcases List.mem_singleton.mp hp0' with rfl
    exact absurd rfl hreal

/-- Witness for C8: in the parse of `A B C D` / `3 d - -`, player `A`
has game count 1, win count 1 (seat 0 won) and blame count 0. -/
theorem aggregation_counts_witness :
    (1 : ℕ) = [(⟨none, 1, 13, "full".toList, "half".toList,
        ⟨"A".toList, "B".toList, "C".toList, "D".toList⟩,
        some 0, some 3, some 1, some 'd'⟩ : Game)].countP
      (fun g => decide (∃ i, g.names.get i = "A".toList)) ∧
    (1 : ℕ) = [(⟨none, 1, 13, "full".toList, "half".toList,
        ⟨"A".toList, "B".toList, "C".toList, "D".toList⟩,
        some 0, some 3, some 1, some 'd'⟩ : Game)].countP
      (fun g => decide (∃ i, g.winner_index = some i ∧
        g.names.get i = "A".toList)) ∧
    (0 : ℕ) = [(⟨none, 1, 13, "full".toList, "half".toList,
        ⟨"A".toList, "B".toList, "C".toList, "D".toList⟩,
        some 0, some 3, some 1, some 'd'⟩ : Game)].countP
      (fun g => decide (∃ i, g.blame_index = some i ∧
        g.names.get i = "A".toList)) :=
  aggregation_counts ["A B C D".toList, "3 d - -".toList] none none
    ([⟨"A".toList, 1, 1, 0, 16, some 1, some 0, some 16⟩,
      ⟨"B".toList, 1, 0, 1, -16, some 0, some 1, some (-16)⟩,
      ⟨"C".toList, 1, 0, 0, 0, some 0, some 0, some 0⟩,
      ⟨"D".toList, 1, 0, 0, 0, some 0, some 0, some 0⟩,
      ⟨"*".toList, 4, 1, 1, 0, some (1/4), some (1/4), some 0⟩],
     [⟨none, 1, 13, "full".toList, "half".toList,
       ⟨"A".toList, "B".toList, "C".toList, "D".toList⟩,
       some 0, some 3, some 1, some 'd'⟩])
    ⟨"A".toList, 1, 1, 0, 16, some 1, some 0, some 16⟩
    (by with_unfolding_all decide) (by with_unfolding_all decide)
    (by decide)

section

attribute [local semireducible] Rat.add Rat.sub Rat.mul Rat.inv

/-- Counterexample to C4 as stated: with start date `2024-01-01`, the
declaration line `B=2` (appearing while no date is current) is skipped, so
the later game is scored at the default base 1; without a window the same
input is scored at base 2. -/
theorem date_filter_skips_declarations :
    Except.map (fun r => r.2.map Game.base)
      (parse ["B=2".toList, "2024-02-02".toList, "A B C D".toList,
        "3 - - -".toList] (some "2024-01-01".toList) none) = .ok [1] ∧
    Except.map (fun r => r.2.map Game.base)
      (parse ["B=2".toList, "2024-02-02".toList, "A B C D".toList,
        "3 - - -".toList] none none) = .ok [2] := by
  constructor <;> decide

/-- Counterexample to C1 as stated about the program's arithmetic: the
input `B=0.1` / `A B C D` / `0 - - -` makes `parse` construct a game
whose base is `float("0.1")` = 3602879701896397/2^55 (and
36028797018963968 = 2^55 below), and the binary64 evaluation of the score
engine on exactly that game's fields returns the vector
`(fl(3·portion), -portion, -portion, -portion)` whose four components sum
to 2^-55, not zero: `3 * portion` falls halfway between two
representable doubles and rounds up to even, gaining one unit in the
last place. -/
theorem parse_game_zero_sum_float_counterexample :
    Except.map (fun r => r.2)
        (parse ["B=0.1".toList, "A B C D".toList, "0 - - -".toList]
          none none)
      = .ok [⟨none, 3602879701896397 / 36028797018963968, 13,
          "full".toList, "half".toList,
          ⟨"A".toList, "B".toList, "C".toList, "D".toList⟩,
          some 0, some 0, none, none⟩] ∧
    compute_net_scores_fl (3602879701896397 / 36028797018963968) 13
        "full".toList "half".toList (some 0) (some 0) none none
      = some ⟨10808639105689192 / 36028797018963968,
          -(3602879701896397 / 36028797018963968),
          -(3602879701896397 / 36028797018963968),
          -(3602879701896397 / 36028797018963968)⟩ ∧
    (10808639105689192 / 36028797018963968
        + -(3602879701896397 / 36028797018963968)
        + -(3602879701896397 / 36028797018963968)
        + -(3602879701896397 / 36028797018963968) : ℚ)
      = 1 / 36028797018963968 ∧
    (1 / 36028797018963968 : ℚ) ≠ 0 := by
  refine ⟨?_, ?_, ?_, ?_⟩ <;> decide

end

end MahjongScore
